import Mathlib

/-!
Verification of the falling-sand chunk simulator (simulator.rs) of the
FallingSandEngine repository.  The definitions below are a shallow
embedding of the Rust source: machine integers become Int or Nat,
floating point values become rationals, the per-step random generator
becomes a pair of explicit draw streams, and the mutable simulation
helper becomes explicit state passing through a small interface record
mirroring the SimulationHelper trait.  CHUNK_SIZE is not defined under
src (it lives in world/mod.rs), so it is kept as a parameter CS
throughout; all theorems hold for every positive CS.
-/

namespace FallingSand

/-- Physics category of a pixel, from material.rs usage in simulator.rs
(Air, Sand and Solid are the categories the simulator inspects). -/
inductive PhysicsType where
  | Air : PhysicsType
  | Sand : PhysicsType
  | Solid : PhysicsType
  | Object : PhysicsType
  deriving DecidableEq, Repr

/-- Packed RGBA color, one byte per channel (bytes modelled as Nat). -/
structure Color where
  r : Nat
  g : Nat
  b : Nat
  a : Nat
  deriving DecidableEq, Repr

/-- Modelled from the spec: the material id of the AIR material
(material.rs is not under src); only equality with it is ever used. -/
def AIR_ID : Nat := 0

/-- A pixel value: material id, physics category, color and light,
from the MaterialInstance fields used in simulator.rs (light triples
are f32 in the source, modelled as rationals). -/
structure MaterialInstance where
  material_id : Nat
  physics : PhysicsType
  color : Color
  light : ℚ × ℚ × ℚ
  deriving DecidableEq, Repr

/-- Modelled from the spec: MaterialInstance.air() from material.rs,
the canonical air pixel (its physics category is Air and its id is the
AIR id; the simulator only inspects those two fields of it). -/
def MaterialInstance.air : MaterialInstance :=
  { material_id := AIR_ID
    physics := PhysicsType.Air
    color := { r := 0, g := 0, b := 0, a := 0 }
    light := (0, 0, 0) }

/-- A spawned particle: material plus continuous position and velocity
(f64 in the source, modelled as rationals). -/
structure Particle where
  material : MaterialInstance
  pos : ℚ × ℚ
  vel : ℚ × ℚ
  deriving DecidableEq, Repr

/-- The per-step random generator (fastrand::Rng), modelled as one
stream of Bool draws and one stream of rational draws in place of the
f32 and f64 draws, each with a cursor; every call consumes the next
element of its stream.  Quantifying over all streams covers every
possible draw sequence of the source generator. -/
structure Rng where
  bools : Nat → Bool
  rats : Nat → ℚ
  bi : Nat
  ri : Nat

def Rng.mk0 (bools : Nat → Bool) (rats : Nat → ℚ) : Rng :=
  { bools := bools, rats := rats, bi := 0, ri := 0 }

def Rng.bool (r : Rng) : Bool × Rng :=
  (r.bools r.bi, { r with bi := r.bi + 1 })

def Rng.f32 (r : Rng) : ℚ × Rng :=
  (r.rats r.ri, { r with ri := r.ri + 1 })

def Rng.f64 (r : Rng) : ℚ × Rng :=
  (r.rats r.ri, { r with ri := r.ri + 1 })

/-- The SimulationHelper trait of simulator.rs restricted to the five
operations simulate_pixel actually uses, as a record of state-passing
functions over an abstract state type (reads also return a state so a
ghost instantiation can log accesses). -/
structure SHelper (σ : Type) where
  borrowPixel : σ → Int → Int → MaterialInstance × σ
  setPixel : σ → Int → Int → MaterialInstance → σ
  setColor : σ → Int → Int → Color → σ
  setLight : σ → Int → Int → (ℚ × ℚ × ℚ) → σ
  addParticle : σ → MaterialInstance → (ℚ × ℚ) → (ℚ × ℚ) → σ

/-- The (0..4).all loop of the empty_below check in simulate_pixel:
borrow the given cells in order, short-circuiting at the first non-Air
one, exactly like Iterator::all. -/
def allAir {σ : Type} (H : SHelper σ) : σ → List (Int × Int) → Bool × σ
  | s, [] => (true, s)
  | s, (a, b) :: rest =>
    let (p, s) := H.borrowPixel s a b
    if p.physics = PhysicsType.Air then allAir H s rest else (false, s)

/-- The straight-down arm of simulate_pixel (simulator.rs lines
737-771), entered when the cell below is open and either both
diagonals are blocked or the 0.1 draw passed: detach into a particle
when the four cells from two rows below are all open, otherwise fall
two cells (on a coin flip, when open) or one cell, clearing the source
by returning air as its replacement. -/
def fallBranch {σ : Type} (H : SHelper σ) (x y : Int)
    (cur : MaterialInstance) (s : σ) (r : Rng) :
    Option MaterialInstance × σ × Rng :=
  let (empty_below, s) :=
    allAir H s [(x, y + 2), (x, y + 3), (x, y + 4), (x, y + 5)]
  if empty_below then
    let (d1, r) := r.f64
    let (d2, r) := r.f64
    let s := H.addParticle s cur ((x : ℚ), (y : ℚ))
      ((d1 - 1/2) * (1/2), 1 + d2)
    (some MaterialInstance.air, s, r)
  else
    let (b, r) := r.bool
    let (goTwo, s) :=
      if b then
        let (p2, s) := H.borrowPixel s x (y + 2)
        (p2.physics == PhysicsType.Air, s)
      else (false, s)
    if goTwo then
      let s := H.setColor s x (y + 2) cur.color
      let s := H.setLight s x (y + 2) cur.light
      let s := H.setPixel s x (y + 2) cur
      (some MaterialInstance.air, s, r)
    else
      let s := H.setColor s x (y + 1) cur.color
      let s := H.setLight s x (y + 1) cur.light
      let s := H.setPixel s x (y + 1) cur
      (some MaterialInstance.air, s, r)

/-- The movement half of the diagonal-spread arm of simulate_pixel
(simulator.rs lines 776-821, the body under the gate): move to a
diagonal, with the two-column hop sub-rule when only one diagonal is
open. -/
def spreadMove {σ : Type} (H : SHelper σ) (x y : Int)
    (cur : MaterialInstance) (bl_can br_can : Bool) (s : σ) (r : Rng) :
    Option MaterialInstance × σ × Rng :=
    if bl_can && br_can then
      let (b, r) := r.bool
      if b then
        let s := H.setColor s (x + 1) (y + 1) cur.color
        let s := H.setLight s (x + 1) (y + 1) cur.light
        let s := H.setPixel s (x + 1) (y + 1) cur
        (some MaterialInstance.air, s, r)
      else
        let s := H.setColor s (x - 1) (y + 1) cur.color
        let s := H.setLight s (x - 1) (y + 1) cur.light
        let s := H.setPixel s (x - 1) (y + 1) cur
        (some MaterialInstance.air, s, r)
    else if bl_can then
      let (b, r) := r.bool
      let (hop, s) :=
        if b then
          let (p1, s) := H.borrowPixel s (x - 2) (y + 1)
          if p1.physics == PhysicsType.Air then
            let (p2, s) := H.borrowPixel s (x - 2) (y + 2)
            (!(p2.physics == PhysicsType.Air), s)
          else (false, s)
        else (false, s)
      if hop then
        let s := H.setColor s (x - 2) (y + 1) cur.color
        let s := H.setLight s (x - 2) (y + 1) cur.light
        let s := H.setPixel s (x - 2) (y + 1) cur
        (some MaterialInstance.air, s, r)
      else
        let s := H.setColor s (x - 1) (y + 1) cur.color
        let s := H.setLight s (x - 1) (y + 1) cur.light
        let s := H.setPixel s (x - 1) (y + 1) cur
        (some MaterialInstance.air, s, r)
    else if br_can then
      let (b, r) := r.bool
      let (hop, s) :=
        if b then
          let (p1, s) := H.borrowPixel s (x + 2) (y + 1)
          if p1.physics == PhysicsType.Air then
            let (p2, s) := H.borrowPixel s (x + 2) (y + 2)
            (!(p2.physics == PhysicsType.Air), s)
          else (false, s)
        else (false, s)
      if hop then
        let s := H.setColor s (x + 2) (y + 1) cur.color
        let s := H.setLight s (x + 2) (y + 1) cur.light
        let s := H.setPixel s (x + 2) (y + 1) cur
        (some MaterialInstance.air, s, r)
      else
        let s := H.setColor s (x + 1) (y + 1) cur.color
        let s := H.setLight s (x + 1) (y + 1) cur.light
        let s := H.setPixel s (x + 1) (y + 1) cur
        (some MaterialInstance.air, s, r)
    else (none, s, r)

/-- The diagonal-spread arm of simulate_pixel (simulator.rs lines
772-823), entered when the straight-down arm was not taken: gated on
the cell above being open or the 0.5 draw, then the movement logic of
spreadMove. -/
def spreadBranch {σ : Type} (H : SHelper σ) (x y : Int)
    (cur : MaterialInstance) (bl_can br_can : Bool) (s : σ) (r : Rng) :
    Option MaterialInstance × σ × Rng :=
  let (above, s) := H.borrowPixel s x (y - 1)
  let above_air := above.physics == PhysicsType.Air
  let (gate, r) :=
    if above_air then (true, r)
    else
      let (q, r) := r.f32
      (decide (q > 1/2), r)
  if gate then spreadMove H x y cur bl_can br_can s r
  else (none, s, r)

/-- Simulator::simulate_pixel from simulator.rs, lines 716-829: the
per-pixel transition rule for the Sand physics category, evaluated at
local coordinate (x, y) on pixel cur through the helper interface.
Returns the optional replacement for the source cell together with the
updated helper state and generator; random draws are consumed exactly
where the source consumes them (short-circuit of Rust && and ||).  The
straight-down and diagonal-spread arms of the source function are the
named definitions fallBranch and spreadBranch above. -/
def simulate_pixel {σ : Type} (H : SHelper σ) (x y : Int)
    (cur : MaterialInstance) (s : σ) (r : Rng) :
    Option MaterialInstance × σ × Rng :=
  -- the match on cur.physics has Sand as its only non-trivial arm
  if cur.physics = PhysicsType.Sand then
    let (below, s) := H.borrowPixel s x (y + 1)
    let below_can := below.physics == PhysicsType.Air
    let (bl, s) := H.borrowPixel s (x - 1) (y + 1)
    let bl_can := bl.physics == PhysicsType.Air
    let (br, s) := H.borrowPixel s (x + 1) (y + 1)
    let br_can := br.physics == PhysicsType.Air
    -- below_can && (!(br_can || bl_can) || rng.f32() > 0.1), drawing
    -- the f32 only when the left conjunct holds and the diagonals are
    -- not both blocked
    let (cond, r) :=
      if below_can then
        if !(br_can || bl_can) then (true, r)
        else
          let (q, r) := r.f32
          (decide (q > 1/10), r)
      else (false, r)
    if cond then fallBranch H x y cur s r
    else spreadBranch H x y cur bl_can br_can s r
  else (none, s, r)

/-- Pointwise update of a function on coordinate pairs (the shallow
embedding of writing one cell of a grid viewed as a total map). -/
def upd2 {α : Type} (f : Int × Int → α) (p : Int × Int) (v : α) :
    Int × Int → α :=
  fun q => if q = p then v else f q

/-- A generic observable grid state for exercising simulate_pixel: a
total pixel map, color map, light map, and the shared particle list.
This instantiates the helper interface in the way both concrete
helpers of simulator.rs do, with the coordinate mapping abstracted
away (the chunk helper routes the same operations through
local_to_indices, the rigid-body helper through transforms). -/
structure GridState where
  pixels : Int × Int → MaterialInstance
  colors : Int × Int → Color
  lights : Int × Int → ℚ × ℚ × ℚ
  particles : List Particle

/-- The helper interface over GridState: reads are pure, writes update
the map at the given cell, add_particle pushes at the end of the
particle list. -/
def gridH : SHelper GridState where
  borrowPixel := fun s x y => (s.pixels (x, y), s)
  setPixel := fun s x y m => { s with pixels := upd2 s.pixels (x, y) m }
  setColor := fun s x y c => { s with colors := upd2 s.colors (x, y) c }
  setLight := fun s x y l => { s with lights := upd2 s.lights (x, y) l }
  addParticle := fun s m p v =>
    { s with particles := s.particles ++ [⟨m, p, v⟩] }

/-- SimulationHelperChunk::local_to_indices from simulator.rs, lines
272-289: decompose a local coordinate (which may lie in the one-chunk
halo) into (chunk index in the 3x3 context, pixel index within that
chunk, chunk-local x, chunk-local y) using Euclidean division and
remainder, with CHUNK_SIZE as the parameter CS. -/
def local_to_indices (CS : Nat) (x y : Int) : Nat × Nat × Nat × Nat :=
  let size : Int := (CS : Int)
  let rel_chunk_x : Int := Int.ediv x size
  let rel_chunk_y : Int := Int.ediv y size
  let chunk_px_x : Nat := (Int.emod x size).toNat
  let chunk_px_y : Nat := (Int.emod y size).toNat
  ((rel_chunk_x + 1).toNat + (rel_chunk_y + 1).toNat * 3,
   chunk_px_x + chunk_px_y * CS,
   chunk_px_x,
   chunk_px_y)

/-- Euclidean quotient of a coordinate one chunk either side of the
center lies in {-1, 0, 1}. -/
theorem ediv_mem_of_halo (CS : Nat) (x : Int) (hCS : 0 < CS)
    (h1 : -(CS : Int) ≤ x) (h2 : x < 2 * CS) :
    -1 ≤ Int.ediv x CS ∧ Int.ediv x CS ≤ 1 := by
  have hne : (CS : Int) ≠ 0 := by exact_mod_cast hCS.ne'
  have hpos : (0 : Int) < CS := by exact_mod_cast hCS
  have hre : (CS : Int) * Int.ediv x CS + Int.emod x CS = x :=
    Int.ediv_add_emod x CS
  have hr0 : 0 ≤ Int.emod x CS := Int.emod_nonneg x hne
  have hr1 : Int.emod x CS < CS := Int.emod_lt_of_pos x hpos
  constructor
  · nlinarith [hre, hr0, hr1]
  · nlinarith [hre, hr0, hr1]

/-- C1: for local coordinates within the 3x3 halo neighborhood,
local_to_indices decomposes by Euclidean (floor) division and modulo:
the neighbor index is (x div CS + 1) + 3 * (y div CS + 1) on a 3x3
grid (so it is below 9, and 4 for the center chunk), the chunk-local
coordinates are the Euclidean remainders in [0, CS), the pixel index
is local-x + local-y * CS, and a negative coordinate yields quotient
-1 (the western resp. northern halo chunk) with remainder x + CS,
floor semantics rather than wrapping or truncation toward zero. -/
theorem local_to_indices_spec (CS : Nat) (x y : Int) (hCS : 0 < CS)
    (hx1 : -(CS : Int) ≤ x) (hx2 : x < 2 * CS)
    (hy1 : -(CS : Int) ≤ y) (hy2 : y < 2 * CS) :
    (((local_to_indices CS x y).1 : Int) =
        (Int.ediv x CS + 1) + 3 * (Int.ediv y CS + 1)) ∧
    (((local_to_indices CS x y).2.2.1 : Int) = Int.emod x CS ∧
     ((local_to_indices CS x y).2.2.2 : Int) = Int.emod y CS) ∧
    ((local_to_indices CS x y).2.2.1 < CS ∧
     (local_to_indices CS x y).2.2.2 < CS) ∧
    ((local_to_indices CS x y).2.1 =
        (local_to_indices CS x y).2.2.1 +
        (local_to_indices CS x y).2.2.2 * CS) ∧
    ((local_to_indices CS x y).1 < 9) ∧
    (x < 0 → Int.ediv x CS = -1 ∧
        ((local_to_indices CS x y).2.2.1 : Int) = x + CS) ∧
    (y < 0 → Int.ediv y CS = -1 ∧
        ((local_to_indices CS x y).2.2.2 : Int) = y + CS) ∧
    ((0 ≤ x ∧ x < CS) ∧ (0 ≤ y ∧ y < CS) →
        (local_to_indices CS x y).1 = 4) := by
  have hne : (CS : Int) ≠ 0 := by exact_mod_cast hCS.ne'
  have hpos : (0 : Int) < CS := by exact_mod_cast hCS
  have hxq := ediv_mem_of_halo CS x hCS hx1 hx2
  have hyq := ediv_mem_of_halo CS y hCS hy1 hy2
  have hxre : (CS : Int) * Int.ediv x CS + Int.emod x CS = x :=
    Int.ediv_add_emod x CS
  have hyre : (CS : Int) * Int.ediv y CS + Int.emod y CS = y :=
    Int.ediv_add_emod y CS
  have hxr0 : 0 ≤ Int.emod x CS := Int.emod_nonneg x hne
  have hxr1 : Int.emod x CS < CS := Int.emod_lt_of_pos x hpos
  have hyr0 : 0 ≤ Int.emod y CS := Int.emod_nonneg y hne
  have hyr1 : Int.emod y CS < CS := Int.emod_lt_of_pos y hpos
  have hxq1 : (0 : Int) ≤ Int.ediv x CS + 1 := by omega
  have hyq1 : (0 : Int) ≤ Int.ediv y CS + 1 := by omega
  simp only [local_to_indices]
  refine ⟨?_, ⟨?_, ?_⟩, ⟨?_, ?_⟩, ?_, ?_, ?_, ?_, ?_⟩
  · push_cast [Int.toNat_of_nonneg hxq1, Int.toNat_of_nonneg hyq1]
    ring
  · exact Int.toNat_of_nonneg hxr0
  · exact Int.toNat_of_nonneg hyr0
  · omega
  · omega
  · trivial
  · have h2 : (Int.ediv x CS + 1).toNat ≤ 2 := by omega
    have h2y : (Int.ediv y CS + 1).toNat ≤ 2 := by omega
    omega
  · intro hxneg
    have hq : Int.ediv x CS = -1 := by nlinarith [hxre, hxr0, hxr1]
    refine ⟨hq, ?_⟩
    rw [Int.toNat_of_nonneg hxr0]
    rw [hq] at hxre
    omega
  · intro hyneg
    have hq : Int.ediv y CS = -1 := by nlinarith [hyre, hyr0, hyr1]
    refine ⟨hq, ?_⟩
    rw [Int.toNat_of_nonneg hyr0]
    rw [hq] at hyre
    omega
  · rintro ⟨⟨hx0, hxc⟩, ⟨hy0, hyc⟩⟩
    have hqx : Int.ediv x CS = 0 := by nlinarith [hxre, hxr0, hxr1]
    have hqy : Int.ediv y CS = 0 := by nlinarith [hyre, hyr0, hyr1]
    rw [hqx, hqy]
    rfl

/-- Witness for C1 at CS = 10, (x, y) = (-3, 17): all hypotheses hold
and the conclusion evaluates on the concrete input. -/
theorem local_to_indices_spec_witness :
    (((local_to_indices 10 (-3) 17).1 : Int) =
        (Int.ediv (-3) 10 + 1) + 3 * (Int.ediv 17 10 + 1)) ∧
    (((local_to_indices 10 (-3) 17).2.2.1 : Int) = Int.emod (-3) 10 ∧
     ((local_to_indices 10 (-3) 17).2.2.2 : Int) = Int.emod 17 10) ∧
    (((local_to_indices 10 (-3) 17).2.2.1 < 10) ∧
     ((local_to_indices 10 (-3) 17).2.2.2 < 10)) ∧
    ((local_to_indices 10 (-3) 17).2.1 =
        (local_to_indices 10 (-3) 17).2.2.1 +
        (local_to_indices 10 (-3) 17).2.2.2 * 10) ∧
    ((local_to_indices 10 (-3) 17).1 < 9) ∧
    ((-3 : Int) < 0 → Int.ediv (-3) 10 = -1 ∧
        ((local_to_indices 10 (-3) 17).2.2.1 : Int) = -3 + 10) ∧
    ((17 : Int) < 0 → Int.ediv 17 10 = -1 ∧
        ((local_to_indices 10 (-3) 17).2.2.2 : Int) = 17 + 10) ∧
    ((0 ≤ (-3 : Int) ∧ (-3 : Int) < 10) ∧
        (0 ≤ (17 : Int) ∧ (17 : Int) < 10) →
        (local_to_indices 10 (-3) 17).1 = 4) := by
  exact local_to_indices_spec 10 (-3) 17 (by norm_num) (by norm_num)
    (by norm_num) (by norm_num) (by norm_num)

@[simp] theorem gridH_borrowPixel (s : GridState) (x y : Int) :
    gridH.borrowPixel s x y = (s.pixels (x, y), s) := rfl

@[simp] theorem gridH_setPixel (s : GridState) (x y : Int)
    (m : MaterialInstance) :
    gridH.setPixel s x y m = { s with pixels := upd2 s.pixels (x, y) m } :=
  rfl

@[simp] theorem gridH_setColor (s : GridState) (x y : Int) (c : Color) :
    gridH.setColor s x y c = { s with colors := upd2 s.colors (x, y) c } :=
  rfl

@[simp] theorem gridH_setLight (s : GridState) (x y : Int)
    (l : ℚ × ℚ × ℚ) :
    gridH.setLight s x y l = { s with lights := upd2 s.lights (x, y) l } :=
  rfl

@[simp] theorem gridH_addParticle (s : GridState) (m : MaterialInstance)
    (p v : ℚ × ℚ) :
    gridH.addParticle s m p v =
      { s with particles := s.particles ++ [⟨m, p, v⟩] } := rfl

theorem allAir_gridH (g : GridState) (l : List (Int × Int)) :
    allAir gridH g l =
      (l.all (fun p => (g.pixels p).physics == PhysicsType.Air), g) := by
  induction l with
  | nil => simp [allAir]
  | cons hd tl ih =>
    obtain ⟨a, b⟩ := hd
    simp only [allAir, gridH_borrowPixel, List.all_cons]
    split
    · rename_i h
      simp [ih, h]
    · rename_i h
      simp [h]

theorem simulate_pixel_down_blocked (g : GridState) (x y : Int)
    (cur : MaterialInstance) (r : Rng)
    (hcur : cur.physics = PhysicsType.Sand)
    (hbelow : (g.pixels (x, y + 1)).physics = PhysicsType.Air)
    (hbl : (g.pixels (x - 1, y + 1)).physics ≠ PhysicsType.Air)
    (hbr : (g.pixels (x + 1, y + 1)).physics ≠ PhysicsType.Air) :
    simulate_pixel gridH x y cur g r = fallBranch gridH x y cur g r := by
  simp [simulate_pixel, hcur, hbelow, hbl, hbr]

theorem simulate_pixel_down_rand (g : GridState) (x y : Int)
    (cur : MaterialInstance) (r : Rng)
    (hcur : cur.physics = PhysicsType.Sand)
    (hbelow : (g.pixels (x, y + 1)).physics = PhysicsType.Air)
    (hopen : (g.pixels (x - 1, y + 1)).physics = PhysicsType.Air ∨
             (g.pixels (x + 1, y + 1)).physics = PhysicsType.Air)
    (hq : r.rats r.ri > 1/10) :
    simulate_pixel gridH x y cur g r =
      fallBranch gridH x y cur g { r with ri := r.ri + 1 } := by
  have hq10 : (10 : ℚ)⁻¹ < r.rats r.ri := by
    rw [show ((10 : ℚ))⁻¹ = 1/10 by norm_num]
    exact hq
  rcases hopen with h | h <;>
    simp [simulate_pixel, Rng.f32, hcur, hbelow, h, hq10]

theorem simulate_pixel_spread_blocked (g : GridState) (x y : Int)
    (cur : MaterialInstance) (r : Rng)
    (hcur : cur.physics = PhysicsType.Sand)
    (hbelow : (g.pixels (x, y + 1)).physics ≠ PhysicsType.Air) :
    simulate_pixel gridH x y cur g r =
      spreadBranch gridH x y cur
        ((g.pixels (x - 1, y + 1)).physics == PhysicsType.Air)
        ((g.pixels (x + 1, y + 1)).physics == PhysicsType.Air) g r := by
  simp [simulate_pixel, hcur, hbelow]

theorem simulate_pixel_spread_rand (g : GridState) (x y : Int)
    (cur : MaterialInstance) (r : Rng)
    (hcur : cur.physics = PhysicsType.Sand)
    (hbelow : (g.pixels (x, y + 1)).physics = PhysicsType.Air)
    (hopen : (g.pixels (x - 1, y + 1)).physics = PhysicsType.Air ∨
             (g.pixels (x + 1, y + 1)).physics = PhysicsType.Air)
    (hq : ¬(r.rats r.ri > 1/10)) :
    simulate_pixel gridH x y cur g r =
      spreadBranch gridH x y cur
        ((g.pixels (x - 1, y + 1)).physics == PhysicsType.Air)
        ((g.pixels (x + 1, y + 1)).physics == PhysicsType.Air) g
        { r with ri := r.ri + 1 } := by
  have hq10 : ¬((10 : ℚ)⁻¹ < r.rats r.ri) := by
    rw [show ((10 : ℚ))⁻¹ = 1/10 by norm_num]
    exact hq
  rcases hopen with h | h <;>
    simp [simulate_pixel, Rng.f32, hcur, hbelow, h, hq10]

theorem fallBranch_particle (g : GridState) (x y : Int)
    (cur : MaterialInstance) (r : Rng)
    (h2 : (g.pixels (x, y + 2)).physics = PhysicsType.Air)
    (h3 : (g.pixels (x, y + 3)).physics = PhysicsType.Air)
    (h4 : (g.pixels (x, y + 4)).physics = PhysicsType.Air)
    (h5 : (g.pixels (x, y + 5)).physics = PhysicsType.Air) :
    fallBranch gridH x y cur g r =
      (some MaterialInstance.air,
       { g with particles := g.particles ++
          [⟨cur, ((x : ℚ), (y : ℚ)),
            ((r.rats r.ri - 1/2) * (1/2), 1 + r.rats (r.ri + 1))⟩] },
       { r with ri := r.ri + 1 + 1 }) := by
  simp [fallBranch, allAir_gridH, Rng.f64, h2, h3, h4, h5]

theorem fallBranch_two (g : GridState) (x y : Int)
    (cur : MaterialInstance) (r : Rng)
    (hnot : ¬((g.pixels (x, y + 2)).physics = PhysicsType.Air ∧
              (g.pixels (x, y + 3)).physics = PhysicsType.Air ∧
              (g.pixels (x, y + 4)).physics = PhysicsType.Air ∧
              (g.pixels (x, y + 5)).physics = PhysicsType.Air))
    (hb : r.bools r.bi = true)
    (h2 : (g.pixels (x, y + 2)).physics = PhysicsType.Air) :
    fallBranch gridH x y cur g r =
      (some MaterialInstance.air,
       { g with pixels := upd2 g.pixels (x, y + 2) cur,
                colors := upd2 g.colors (x, y + 2) cur.color,
                lights := upd2 g.lights (x, y + 2) cur.light },
       { r with bi := r.bi + 1 }) := by
  have hall : ([(x, y + 2), (x, y + 3), (x, y + 4), (x, y + 5)].all
      (fun p => (g.pixels p).physics == PhysicsType.Air)) = false := by
    simp only [List.all_cons, List.all_nil, Bool.and_true,
      Bool.and_eq_false_iff, beq_eq_false_iff_ne, ne_eq]
    tauto
  simp [fallBranch, allAir_gridH, Rng.bool, hall, hb, h2]

theorem fallBranch_one (g : GridState) (x y : Int)
    (cur : MaterialInstance) (r : Rng)
    (hnot : ¬((g.pixels (x, y + 2)).physics = PhysicsType.Air ∧
              (g.pixels (x, y + 3)).physics = PhysicsType.Air ∧
              (g.pixels (x, y + 4)).physics = PhysicsType.Air ∧
              (g.pixels (x, y + 5)).physics = PhysicsType.Air))
    (hno : ¬(r.bools r.bi = true ∧
             (g.pixels (x, y + 2)).physics = PhysicsType.Air)) :
    fallBranch gridH x y cur g r =
      (some MaterialInstance.air,
       { g with pixels := upd2 g.pixels (x, y + 1) cur,
                colors := upd2 g.colors (x, y + 1) cur.color,
                lights := upd2 g.lights (x, y + 1) cur.light },
       { r with bi := r.bi + 1 }) := by
  have hall : ([(x, y + 2), (x, y + 3), (x, y + 4), (x, y + 5)].all
      (fun p => (g.pixels p).physics == PhysicsType.Air)) = false := by
    simp only [List.all_cons, List.all_nil, Bool.and_true,
      Bool.and_eq_false_iff, beq_eq_false_iff_ne, ne_eq]
    tauto
  by_cases hb : r.bools r.bi = true
  · have h2 : (g.pixels (x, y + 2)).physics ≠ PhysicsType.Air := by tauto
    simp [fallBranch, allAir_gridH, Rng.bool, hall, hb, h2]
  · simp only [Bool.not_eq_true] at hb
    simp [fallBranch, allAir_gridH, Rng.bool, hall, hb]

theorem spreadBranch_gate_above (g : GridState) (x y : Int)
    (cur : MaterialInstance) (bl br : Bool) (r : Rng)
    (habove : (g.pixels (x, y - 1)).physics = PhysicsType.Air) :
    spreadBranch gridH x y cur bl br g r =
      spreadMove gridH x y cur bl br g r := by
  simp [spreadBranch, habove]

theorem spreadBranch_gate_draw (g : GridState) (x y : Int)
    (cur : MaterialInstance) (bl br : Bool) (r : Rng)
    (hnab : (g.pixels (x, y - 1)).physics ≠ PhysicsType.Air)
    (hq : r.rats r.ri > 1/2) :
    spreadBranch gridH x y cur bl br g r =
      spreadMove gridH x y cur bl br g { r with ri := r.ri + 1 } := by
  have hq2 : (2 : ℚ)⁻¹ < r.rats r.ri := by
    rw [show ((2 : ℚ))⁻¹ = 1/2 by norm_num]
    exact hq
  simp [spreadBranch, Rng.f32, hnab, hq2]

theorem spreadBranch_gate_fail (g : GridState) (x y : Int)
    (cur : MaterialInstance) (bl br : Bool) (r : Rng)
    (hnab : (g.pixels (x, y - 1)).physics ≠ PhysicsType.Air)
    (hq : ¬(r.rats r.ri > 1/2)) :
    spreadBranch gridH x y cur bl br g r =
      (none, g, { r with ri := r.ri + 1 }) := by
  have hq2 : ¬((2 : ℚ)⁻¹ < r.rats r.ri) := by
    rw [show ((2 : ℚ))⁻¹ = 1/2 by norm_num]
    exact hq
  simp [spreadBranch, Rng.f32, hnab, hq2]

theorem spreadMove_both_right (g : GridState) (x y : Int)
    (cur : MaterialInstance) (r : Rng)
    (hb : r.bools r.bi = true) :
    spreadMove gridH x y cur true true g r =
      (some MaterialInstance.air,
       { g with pixels := upd2 g.pixels (x + 1, y + 1) cur,
                colors := upd2 g.colors (x + 1, y + 1) cur.color,
                lights := upd2 g.lights (x + 1, y + 1) cur.light },
       { r with bi := r.bi + 1 }) := by
  simp [spreadMove, Rng.bool, hb]

theorem spreadMove_both_left (g : GridState) (x y : Int)
    (cur : MaterialInstance) (r : Rng)
    (hb : r.bools r.bi = false) :
    spreadMove gridH x y cur true true g r =
      (some MaterialInstance.air,
       { g with pixels := upd2 g.pixels (x - 1, y + 1) cur,
                colors := upd2 g.colors (x - 1, y + 1) cur.color,
                lights := upd2 g.lights (x - 1, y + 1) cur.light },
       { r with bi := r.bi + 1 }) := by
  simp [spreadMove, Rng.bool, hb]

theorem spreadMove_left_hop (g : GridState) (x y : Int)
    (cur : MaterialInstance) (r : Rng)
    (hb : r.bools r.bi = true)
    (h1 : (g.pixels (x - 2, y + 1)).physics = PhysicsType.Air)
    (h2 : (g.pixels (x - 2, y + 2)).physics ≠ PhysicsType.Air) :
    spreadMove gridH x y cur true false g r =
      (some MaterialInstance.air,
       { g with pixels := upd2 g.pixels (x - 2, y + 1) cur,
                colors := upd2 g.colors (x - 2, y + 1) cur.color,
                lights := upd2 g.lights (x - 2, y + 1) cur.light },
       { r with bi := r.bi + 1 }) := by
  simp [spreadMove, Rng.bool, hb, h1, h2]

theorem spreadMove_left_diag (g : GridState) (x y : Int)
    (cur : MaterialInstance) (r : Rng)
    (hno : ¬(r.bools r.bi = true ∧
             (g.pixels (x - 2, y + 1)).physics = PhysicsType.Air ∧
             (g.pixels (x - 2, y + 2)).physics ≠ PhysicsType.Air)) :
    spreadMove gridH x y cur true false g r =
      (some MaterialInstance.air,
       { g with pixels := upd2 g.pixels (x - 1, y + 1) cur,
                colors := upd2 g.colors (x - 1, y + 1) cur.color,
                lights := upd2 g.lights (x - 1, y + 1) cur.light },
       { r with bi := r.bi + 1 }) := by
  by_cases hb : r.bools r.bi = true
  · by_cases h1 : (g.pixels (x - 2, y + 1)).physics = PhysicsType.Air
    · have h2 : (g.pixels (x - 2, y + 2)).physics = PhysicsType.Air := by
        by_contra hc
        exact hno ⟨hb, h1, hc⟩
      simp [spreadMove, Rng.bool, hb, h1, h2]
    · simp [spreadMove, Rng.bool, hb, h1]
  · simp only [Bool.not_eq_true] at hb
    simp [spreadMove, Rng.bool, hb]

theorem spreadMove_right_hop (g : GridState) (x y : Int)
    (cur : MaterialInstance) (r : Rng)
    (hb : r.bools r.bi = true)
    (h1 : (g.pixels (x + 2, y + 1)).physics = PhysicsType.Air)
    (h2 : (g.pixels (x + 2, y + 2)).physics ≠ PhysicsType.Air) :
    spreadMove gridH x y cur false true g r =
      (some MaterialInstance.air,
       { g with pixels := upd2 g.pixels (x + 2, y + 1) cur,
                colors := upd2 g.colors (x + 2, y + 1) cur.color,
                lights := upd2 g.lights (x + 2, y + 1) cur.light },
       { r with bi := r.bi + 1 }) := by
  simp [spreadMove, Rng.bool, hb, h1, h2]

theorem spreadMove_right_diag (g : GridState) (x y : Int)
    (cur : MaterialInstance) (r : Rng)
    (hno : ¬(r.bools r.bi = true ∧
             (g.pixels (x + 2, y + 1)).physics = PhysicsType.Air ∧
             (g.pixels (x + 2, y + 2)).physics ≠ PhysicsType.Air)) :
    spreadMove gridH x y cur false true g r =
      (some MaterialInstance.air,
       { g with pixels := upd2 g.pixels (x + 1, y + 1) cur,
                colors := upd2 g.colors (x + 1, y + 1) cur.color,
                lights := upd2 g.lights (x + 1, y + 1) cur.light },
       { r with bi := r.bi + 1 }) := by
  by_cases hb : r.bools r.bi = true
  · by_cases h1 : (g.pixels (x + 2, y + 1)).physics = PhysicsType.Air
    · have h2 : (g.pixels (x + 2, y + 2)).physics = PhysicsType.Air := by
        by_contra hc
        exact hno ⟨hb, h1, hc⟩
      simp [spreadMove, Rng.bool, hb, h1, h2]
    · simp [spreadMove, Rng.bool, hb, h1]
  · simp only [Bool.not_eq_true] at hb
    simp [spreadMove, Rng.bool, hb]

theorem spreadMove_none (g : GridState) (x y : Int)
    (cur : MaterialInstance) (r : Rng) :
    spreadMove gridH x y cur false false g r = (none, g, r) := by
  simp [spreadMove]

theorem fallBranch_fst (g : GridState) (x y : Int)
    (cur : MaterialInstance) (r : Rng) :
    (fallBranch gridH x y cur g r).1 = some MaterialInstance.air := by
  simp only [fallBranch, allAir_gridH, Rng.f64, Rng.bool, gridH_borrowPixel,
    gridH_addParticle, gridH_setColor, gridH_setLight, gridH_setPixel]
  split_ifs <;> rfl

/-- C2: a Sand pixel whose straight-down neighbor is Air, when both
diagonals are blocked or the 0.1 draw passes, either detaches into
exactly one particle carrying its material with a small random
horizontal velocity and a strong downward velocity and touches no grid
cell (when the four cells from two rows below are all Air), or writes
its material, color and light two cells down (on a successful coin
flip with that cell open) and otherwise one cell down; in every case
the replacement returned for the source cell is air. -/
theorem sand_down_branch_spec (g : GridState) (x y : Int)
    (cur : MaterialInstance) (r : Rng)
    (hcur : cur.physics = PhysicsType.Sand)
    (hbelow : (g.pixels (x, y + 1)).physics = PhysicsType.Air)
    (hgate : ((g.pixels (x - 1, y + 1)).physics ≠ PhysicsType.Air ∧
              (g.pixels (x + 1, y + 1)).physics ≠ PhysicsType.Air) ∨
             r.rats r.ri > 1/10) :
    (simulate_pixel gridH x y cur g r).1 = some MaterialInstance.air ∧
    (((g.pixels (x, y + 2)).physics = PhysicsType.Air ∧
      (g.pixels (x, y + 3)).physics = PhysicsType.Air ∧
      (g.pixels (x, y + 4)).physics = PhysicsType.Air ∧
      (g.pixels (x, y + 5)).physics = PhysicsType.Air) →
      ∃ d1 d2 : ℚ,
        (simulate_pixel gridH x y cur g r).2.1.particles =
          g.particles ++
            [⟨cur, ((x : ℚ), (y : ℚ)), ((d1 - 1/2) * (1/2), 1 + d2)⟩] ∧
        (0 ≤ d1 ∧ d1 ≤ 1 →
          -(1/4) ≤ (d1 - 1/2) * (1/2) ∧ (d1 - 1/2) * (1/2) ≤ 1/4) ∧
        (0 ≤ d2 ∧ d2 ≤ 1 → 1 ≤ 1 + d2 ∧ 1 + d2 ≤ 2) ∧
        (simulate_pixel gridH x y cur g r).2.1.pixels = g.pixels ∧
        (simulate_pixel gridH x y cur g r).2.1.colors = g.colors ∧
        (simulate_pixel gridH x y cur g r).2.1.lights = g.lights) ∧
    (¬((g.pixels (x, y + 2)).physics = PhysicsType.Air ∧
       (g.pixels (x, y + 3)).physics = PhysicsType.Air ∧
       (g.pixels (x, y + 4)).physics = PhysicsType.Air ∧
       (g.pixels (x, y + 5)).physics = PhysicsType.Air) →
      ((r.bools r.bi = true ∧
        (g.pixels (x, y + 2)).physics = PhysicsType.Air) →
        (simulate_pixel gridH x y cur g r).2.1.pixels =
          upd2 g.pixels (x, y + 2) cur ∧
        (simulate_pixel gridH x y cur g r).2.1.colors =
          upd2 g.colors (x, y + 2) cur.color ∧
        (simulate_pixel gridH x y cur g r).2.1.lights =
          upd2 g.lights (x, y + 2) cur.light ∧
        (simulate_pixel gridH x y cur g r).2.1.particles = g.particles) ∧
      (¬(r.bools r.bi = true ∧
         (g.pixels (x, y + 2)).physics = PhysicsType.Air) →
        (simulate_pixel gridH x y cur g r).2.1.pixels =
          upd2 g.pixels (x, y + 1) cur ∧
        (simulate_pixel gridH x y cur g r).2.1.colors =
          upd2 g.colors (x, y + 1) cur.color ∧
        (simulate_pixel gridH x y cur g r).2.1.lights =
          upd2 g.lights (x, y + 1) cur.light ∧
        (simulate_pixel gridH x y cur g r).2.1.particles =
          g.particles)) := by
  rcases hgate with ⟨hbl, hbr⟩ | hq
  · rw [simulate_pixel_down_blocked g x y cur r hcur hbelow hbl hbr]
    refine ⟨fallBranch_fst g x y cur r, ?_, ?_⟩
    · rintro ⟨h2, h3, h4, h5⟩
      rw [fallBranch_particle g x y cur r h2 h3 h4 h5]
      exact ⟨r.rats r.ri, r.rats (r.ri + 1), rfl,
        fun ⟨ha, hb⟩ => ⟨by linarith, by linarith⟩,
        fun ⟨ha, hb⟩ => ⟨by linarith, by linarith⟩, rfl, rfl, rfl⟩
    · intro hnot
      constructor
      · rintro ⟨hb0, h2⟩
        rw [fallBranch_two g x y cur r hnot hb0 h2]
        exact ⟨rfl, rfl, rfl, rfl⟩
      · intro hno
        rw [fallBranch_one g x y cur r hnot hno]
        exact ⟨rfl, rfl, rfl, rfl⟩
  · by_cases hblocked : (g.pixels (x - 1, y + 1)).physics ≠ PhysicsType.Air ∧
        (g.pixels (x + 1, y + 1)).physics ≠ PhysicsType.Air
    · rw [simulate_pixel_down_blocked g x y cur r hcur hbelow hblocked.1
        hblocked.2]
      refine ⟨fallBranch_fst g x y cur r, ?_, ?_⟩
      · rintro ⟨h2, h3, h4, h5⟩
        rw [fallBranch_particle g x y cur r h2 h3 h4 h5]
        exact ⟨r.rats r.ri, r.rats (r.ri + 1), rfl,
          fun ⟨ha, hb⟩ => ⟨by linarith, by linarith⟩,
          fun ⟨ha, hb⟩ => ⟨by linarith, by linarith⟩, rfl, rfl, rfl⟩
      · intro hnot
        constructor
        · rintro ⟨hb0, h2⟩
          rw [fallBranch_two g x y cur r hnot hb0 h2]
          exact ⟨rfl, rfl, rfl, rfl⟩
        · intro hno
          rw [fallBranch_one g x y cur r hnot hno]
          exact ⟨rfl, rfl, rfl, rfl⟩
    · have hopen : (g.pixels (x - 1, y + 1)).physics = PhysicsType.Air ∨
          (g.pixels (x + 1, y + 1)).physics = PhysicsType.Air := by
        by_cases hl : (g.pixels (x - 1, y + 1)).physics = PhysicsType.Air
        · exact Or.inl hl
        · by_cases hr : (g.pixels (x + 1, y + 1)).physics = PhysicsType.Air
          · exact Or.inr hr
          · exact absurd ⟨hl, hr⟩ hblocked
      rw [simulate_pixel_down_rand g x y cur r hcur hbelow hopen hq]
      refine ⟨fallBranch_fst g x y cur _, ?_, ?_⟩
      · rintro ⟨h2, h3, h4, h5⟩
        rw [fallBranch_particle g x y cur _ h2 h3 h4 h5]
        exact ⟨r.rats (r.ri + 1), r.rats (r.ri + 1 + 1), rfl,
          fun ⟨ha, hb⟩ => ⟨by linarith, by linarith⟩,
          fun ⟨ha, hb⟩ => ⟨by linarith, by linarith⟩, rfl, rfl, rfl⟩
      · intro hnot
        constructor
        · rintro ⟨hb0, h2⟩
          rw [fallBranch_two g x y cur { r with ri := r.ri + 1 } hnot hb0 h2]
          exact ⟨rfl, rfl, rfl, rfl⟩
        · intro hno
          rw [fallBranch_one g x y cur { r with ri := r.ri + 1 } hnot hno]
          exact ⟨rfl, rfl, rfl, rfl⟩

def sandM : MaterialInstance :=
  { material_id := 1, physics := PhysicsType.Sand
    color := { r := 200, g := 180, b := 100, a := 255 }, light := (0, 0, 0) }

def solidM : MaterialInstance :=
  { material_id := 2, physics := PhysicsType.Solid
    color := { r := 90, g := 90, b := 90, a := 255 }, light := (0, 0, 0) }

/-- A grid with one sand pixel at the origin, both down-diagonals
blocked by solid, and everything else air. -/
def gA : GridState :=
  { pixels := fun p =>
      if p = (0, 0) then sandM
      else if p = (-1, 1) then solidM
      else if p = (1, 1) then solidM
      else MaterialInstance.air
    colors := fun _ => { r := 0, g := 0, b := 0, a := 0 }
    lights := fun _ => (0, 0, 0)
    particles := [] }

def rngW : Rng := Rng.mk0 (fun _ => true) (fun _ => 1)

theorem sand_down_branch_spec_witness :
    (sandM.physics = PhysicsType.Sand ∧
     (gA.pixels (0, 0 + 1)).physics = PhysicsType.Air ∧
     (gA.pixels (0 - 1, 0 + 1)).physics ≠ PhysicsType.Air ∧
     (gA.pixels (0 + 1, 0 + 1)).physics ≠ PhysicsType.Air) ∧
    ((simulate_pixel gridH 0 0 sandM gA rngW).1 =
        some MaterialInstance.air ∧
    (((gA.pixels (0, 0 + 2)).physics = PhysicsType.Air ∧
      (gA.pixels (0, 0 + 3)).physics = PhysicsType.Air ∧
      (gA.pixels (0, 0 + 4)).physics = PhysicsType.Air ∧
      (gA.pixels (0, 0 + 5)).physics = PhysicsType.Air) →
      ∃ d1 d2 : ℚ,
        (simulate_pixel gridH 0 0 sandM gA rngW).2.1.particles =
          gA.particles ++
            [⟨sandM, ((0 : ℚ), (0 : ℚ)),
              ((d1 - 1/2) * (1/2), 1 + d2)⟩] ∧
        (0 ≤ d1 ∧ d1 ≤ 1 →
          -(1/4) ≤ (d1 - 1/2) * (1/2) ∧ (d1 - 1/2) * (1/2) ≤ 1/4) ∧
        (0 ≤ d2 ∧ d2 ≤ 1 → 1 ≤ 1 + d2 ∧ 1 + d2 ≤ 2) ∧
        (simulate_pixel gridH 0 0 sandM gA rngW).2.1.pixels = gA.pixels ∧
        (simulate_pixel gridH 0 0 sandM gA rngW).2.1.colors = gA.colors ∧
        (simulate_pixel gridH 0 0 sandM gA rngW).2.1.lights =
          gA.lights) ∧
    (¬((gA.pixels (0, 0 + 2)).physics = PhysicsType.Air ∧
       (gA.pixels (0, 0 + 3)).physics = PhysicsType.Air ∧
       (gA.pixels (0, 0 + 4)).physics = PhysicsType.Air ∧
       (gA.pixels (0, 0 + 5)).physics = PhysicsType.Air) →
      ((rngW.bools rngW.bi = true ∧
        (gA.pixels (0, 0 + 2)).physics = PhysicsType.Air) →
        (simulate_pixel gridH 0 0 sandM gA rngW).2.1.pixels =
          upd2 gA.pixels (0, 0 + 2) sandM ∧
        (simulate_pixel gridH 0 0 sandM gA rngW).2.1.colors =
          upd2 gA.colors (0, 0 + 2) sandM.color ∧
        (simulate_pixel gridH 0 0 sandM gA rngW).2.1.lights =
          upd2 gA.lights (0, 0 + 2) sandM.light ∧
        (simulate_pixel gridH 0 0 sandM gA rngW).2.1.particles =
          gA.particles) ∧
      (¬(rngW.bools rngW.bi = true ∧
         (gA.pixels (0, 0 + 2)).physics = PhysicsType.Air) →
        (simulate_pixel gridH 0 0 sandM gA rngW).2.1.pixels =
          upd2 gA.pixels (0, 0 + 1) sandM ∧
        (simulate_pixel gridH 0 0 sandM gA rngW).2.1.colors =
          upd2 gA.colors (0, 0 + 1) sandM.color ∧
        (simulate_pixel gridH 0 0 sandM gA rngW).2.1.lights =
          upd2 gA.lights (0, 0 + 1) sandM.light ∧
        (simulate_pixel gridH 0 0 sandM gA rngW).2.1.particles =
          gA.particles))) :=
  ⟨⟨rfl, by simp [gA, sandM, solidM, MaterialInstance.air],
    by simp [gA, sandM, solidM], by simp [gA, sandM, solidM]⟩,
   sand_down_branch_spec gA 0 0 sandM rngW rfl
     (by simp [gA, sandM, solidM, MaterialInstance.air])
     (Or.inl ⟨by simp [gA, sandM, solidM],
              by simp [gA, sandM, solidM]⟩)⟩

/-- The body of the process closure in simulate_chunk (simulator.rs
lines 546-564): read the current pixel at (x, y), run the transition
rule, and when it yields a replacement write its color, light and
material back at (x, y). -/
def processStep {σ : Type} (H : SHelper σ) (x y : Int) (s : σ)
    (r : Rng) : σ × Rng :=
  let (cur, s) := H.borrowPixel s x y
  match simulate_pixel H x y cur s r with
  | (some mat, s, r) =>
    let s := H.setColor s x y mat.color
    let s := H.setLight s x y mat.light
    let s := H.setPixel s x y mat
    (s, r)
  | (none, s, r) => (s, r)

/-- C3: a single Sand pixel whose inspected neighborhood is all Air
moves, for every draw sequence, to exactly one destination: the source
cell becomes air, and either exactly one other grid cell changes and
it now holds the moved material with every other cell unchanged and no
particle spawned, or no other grid cell changes and exactly one
particle carrying the material is appended. -/
theorem isolated_sand_one_destination (g : GridState) (x y : Int)
    (r : Rng)
    (hsand : (g.pixels (x, y)).physics = PhysicsType.Sand)
    (h01 : (g.pixels (x, y + 1)).physics = PhysicsType.Air)
    (hm11 : (g.pixels (x - 1, y + 1)).physics = PhysicsType.Air)
    (hp11 : (g.pixels (x + 1, y + 1)).physics = PhysicsType.Air)
    (h02 : (g.pixels (x, y + 2)).physics = PhysicsType.Air)
    (h03 : (g.pixels (x, y + 3)).physics = PhysicsType.Air)
    (h04 : (g.pixels (x, y + 4)).physics = PhysicsType.Air)
    (h05 : (g.pixels (x, y + 5)).physics = PhysicsType.Air)
    (h0m1 : (g.pixels (x, y - 1)).physics = PhysicsType.Air) :
    (processStep gridH x y g r).1.pixels (x, y) = MaterialInstance.air ∧
    (((∃ d : Int × Int, d ≠ (x, y) ∧
        (processStep gridH x y g r).1.pixels d = g.pixels (x, y) ∧
        (processStep gridH x y g r).1.pixels d ≠ g.pixels d ∧
        (∀ e : Int × Int, e ≠ (x, y) → e ≠ d →
          (processStep gridH x y g r).1.pixels e = g.pixels e)) ∧
      (processStep gridH x y g r).1.particles = g.particles) ∨
     ((∀ e : Int × Int, e ≠ (x, y) →
        (processStep gridH x y g r).1.pixels e = g.pixels e) ∧
      ∃ p : Particle,
        (processStep gridH x y g r).1.particles = g.particles ++ [p] ∧
        p.material = g.pixels (x, y))) := by
  by_cases hq : r.rats r.ri > 1/10
  · have hsim := simulate_pixel_down_rand g x y (g.pixels (x, y)) r hsand
      h01 (Or.inl hm11) hq
    have hfall := fallBranch_particle g x y (g.pixels (x, y))
      { r with ri := r.ri + 1 } h02 h03 h04 h05
    have hout : processStep gridH x y g r =
        ({ g with
            pixels := upd2 g.pixels (x, y) MaterialInstance.air,
            colors := upd2 g.colors (x, y) MaterialInstance.air.color,
            lights := upd2 g.lights (x, y) MaterialInstance.air.light,
            particles := g.particles ++
              [⟨g.pixels (x, y), ((x : ℚ), (y : ℚ)),
                ((r.rats (r.ri + 1) - 1/2) * (1/2),
                 1 + r.rats (r.ri + 1 + 1))⟩] },
         { r with ri := r.ri + 1 + 1 + 1 }) := by
      simp only [processStep, gridH_borrowPixel, hsim, hfall,
        gridH_setColor, gridH_setLight, gridH_setPixel]
    rw [hout]
    refine ⟨by simp [upd2], Or.inr ⟨?_, ?_⟩⟩
    · intro e he
      simp [upd2, he]
    · exact ⟨_, rfl, rfl⟩
  · have hsim := simulate_pixel_spread_rand g x y (g.pixels (x, y)) r
      hsand h01 (Or.inl hm11) hq
    rw [hm11, hp11] at hsim
    simp only [beq_self_eq_true] at hsim
    have hgt := spreadBranch_gate_above g x y (g.pixels (x, y)) true true
      { r with ri := r.ri + 1 } h0m1
    by_cases hb : r.bools r.bi = true
    · have hmv := spreadMove_both_right g x y (g.pixels (x, y))
        { r with ri := r.ri + 1 } hb
      have hout : processStep gridH x y g r =
          ({ g with
              pixels := upd2 (upd2 g.pixels (x + 1, y + 1)
                (g.pixels (x, y))) (x, y) MaterialInstance.air,
              colors := upd2 (upd2 g.colors (x + 1, y + 1)
                (g.pixels (x, y)).color) (x, y)
                MaterialInstance.air.color,
              lights := upd2 (upd2 g.lights (x + 1, y + 1)
                (g.pixels (x, y)).light) (x, y)
                MaterialInstance.air.light },
           { r with bi := r.bi + 1, ri := r.ri + 1 }) := by
        simp only [processStep, gridH_borrowPixel, hsim, hgt, hmv,
          gridH_setColor, gridH_setLight, gridH_setPixel]
      rw [hout]
      have hne : ((x + 1, y + 1) : Int × Int) ≠ (x, y) := by
        simp only [ne_eq, Prod.mk.injEq, not_and]
        intro h
        omega
      refine ⟨by simp [upd2], Or.inl ⟨⟨(x + 1, y + 1), hne, ?_, ?_, ?_⟩,
        rfl⟩⟩
      · simp [upd2, hne]
      · intro hc
        simp only [upd2, if_neg hne, if_pos rfl, if_true] at hc
        rw [hc, hp11] at hsand
        simp at hsand
      · intro e he1 he2
        simp [upd2, he1, he2]
    · simp only [Bool.not_eq_true] at hb
      have hmv := spreadMove_both_left g x y (g.pixels (x, y))
        { r with ri := r.ri + 1 } hb
      have hout : processStep gridH x y g r =
          ({ g with
              pixels := upd2 (upd2 g.pixels (x - 1, y + 1)
                (g.pixels (x, y))) (x, y) MaterialInstance.air,
              colors := upd2 (upd2 g.colors (x - 1, y + 1)
                (g.pixels (x, y)).color) (x, y)
                MaterialInstance.air.color,
              lights := upd2 (upd2 g.lights (x - 1, y + 1)
                (g.pixels (x, y)).light) (x, y)
                MaterialInstance.air.light },
           { r with bi := r.bi + 1, ri := r.ri + 1 }) := by
        simp only [processStep, gridH_borrowPixel, hsim, hgt, hmv,
          gridH_setColor, gridH_setLight, gridH_setPixel]
      rw [hout]
      have hne : ((x - 1, y + 1) : Int × Int) ≠ (x, y) := by
        simp only [ne_eq, Prod.mk.injEq, not_and]
        intro h
        omega
      refine ⟨by simp [upd2], Or.inl ⟨⟨(x - 1, y + 1), hne, ?_, ?_, ?_⟩,
        rfl⟩⟩
      · simp [upd2, hne]
      · intro hc
        simp only [upd2, if_neg hne, if_pos rfl, if_true] at hc
        rw [hc, hm11] at hsand
        simp at hsand
      · intro e he1 he2
        simp [upd2, he1, he2]

/-- The diagonal-hop sub-rule exactly as the claim states it: when the
straight-down branch was not taken, the gate passed via an open cell
above, only down-left is open, and the 50% draw succeeded, then if it
is not the case that the cell two columns left AT THE SAME ROW is open
and the cell two-left-one-down is blocked, the pixel moves one
diagonal step to (x - 1, y + 1).  (Stated from the claim words, for
comparison with the source rule.) -/
def hopClaimStatement : Prop :=
  ∀ (g : GridState) (x y : Int) (cur : MaterialInstance) (r : Rng),
    cur.physics = PhysicsType.Sand →
    (g.pixels (x, y + 1)).physics ≠ PhysicsType.Air →
    (g.pixels (x, y - 1)).physics = PhysicsType.Air →
    (g.pixels (x - 1, y + 1)).physics = PhysicsType.Air →
    (g.pixels (x + 1, y + 1)).physics ≠ PhysicsType.Air →
    r.bools r.bi = true →
    ¬((g.pixels (x - 2, y)).physics = PhysicsType.Air ∧
      (g.pixels (x - 2, y + 1)).physics ≠ PhysicsType.Air) →
    (simulate_pixel gridH x y cur g r).2.1.pixels (x - 1, y + 1) = cur

/-- A grid refuting the claim wording of the hop rule: sand at the
origin, below and down-right blocked, down-left open, above open, the
cell two left at the same row blocked, two-left-one-down open,
two-left-two-down blocked. -/
def gH : GridState :=
  { pixels := fun p =>
      if p = (0, 0) then sandM
      else if p = (0, 1) then solidM
      else if p = (1, 1) then solidM
      else if p = (-2, 0) then solidM
      else if p = (-2, 2) then solidM
      else MaterialInstance.air
    colors := fun _ => { r := 0, g := 0, b := 0, a := 0 }
    lights := fun _ => (0, 0, 0)
    particles := [] }

/-- C7 counterexample: on the concrete grid gH with the coin fixed to
true, the source rule hops to (x - 2, y + 1) even though the claim
guard (two columns left at the same row open, two-left-one-down
blocked) is false, where the claim requires a single diagonal step to
(x - 1, y + 1); the claim as stated is therefore false of the code. -/
theorem hop_claim_false : ¬hopClaimStatement := by
  intro h
  have hc := h gH 0 0 sandM rngW rfl
    (by simp [gH, sandM, solidM])
    (by simp [gH, sandM, solidM, MaterialInstance.air])
    (by simp [gH, sandM, solidM, MaterialInstance.air])
    (by simp [gH, sandM, solidM])
    rfl
    (by
      rintro ⟨h1, h2⟩
      simp [gH, sandM, solidM, MaterialInstance.air] at h1)
  have heval : (simulate_pixel gridH 0 0 sandM gH rngW).2.1.pixels
      (0 - 1, 0 + 1) = MaterialInstance.air := by
    simp [simulate_pixel, spreadBranch, spreadMove, Rng.bool, Rng.f32,
      gH, rngW, Rng.mk0, sandM, solidM, MaterialInstance.air, upd2]
  rw [hc] at heval
  simp [sandM, MaterialInstance.air] at heval

/-- The hop guard of the code for the only-down-left case: coin true,
two-left-one-down open, two-left-two-down blocked. -/
def hopGuardL (g : GridState) (x y : Int) (r : Rng) : Prop :=
  r.bools r.bi = true ∧
  (g.pixels (x - 2, y + 1)).physics = PhysicsType.Air ∧
  (g.pixels (x - 2, y + 2)).physics ≠ PhysicsType.Air

instance (g : GridState) (x y : Int) (r : Rng) :
    Decidable (hopGuardL g x y r) := by
  unfold hopGuardL
  infer_instance

/-- The destination of the only-down-left case per the code: the hop
cell (x - 2, y + 1) when the guard holds, else the diagonal. -/
def hopDestL (g : GridState) (x y : Int) (r : Rng) : Int × Int :=
  if hopGuardL g x y r then (x - 2, y + 1) else (x - 1, y + 1)

/-- The hop guard of the code for the only-down-right case. -/
def hopGuardR (g : GridState) (x y : Int) (r : Rng) : Prop :=
  r.bools r.bi = true ∧
  (g.pixels (x + 2, y + 1)).physics = PhysicsType.Air ∧
  (g.pixels (x + 2, y + 2)).physics ≠ PhysicsType.Air

instance (g : GridState) (x y : Int) (r : Rng) :
    Decidable (hopGuardR g x y r) := by
  unfold hopGuardR
  infer_instance

/-- The destination of the only-down-right case per the code. -/
def hopDestR (g : GridState) (x y : Int) (r : Rng) : Int × Int :=
  if hopGuardR g x y r then (x + 2, y + 1) else (x + 1, y + 1)

/-- C7 amended: for a Sand pixel that did not take the straight-down
branch and whose spread gate passed, when only down-left is open the
hop condition actually checked by the code is that the cell two
columns left ONE ROW DOWN is open and the cell two columns left TWO
rows down is blocked, and the hop destination is (x - 2, y + 1);
otherwise the pixel moves one diagonal step to (x - 1, y + 1).  The
symmetric rule holds when only down-right is open.  The replacement
returned for the source cell is air whenever the pixel moved. -/
theorem diag_hop_amended (g : GridState) (x y : Int)
    (cur : MaterialInstance) (r : Rng)
    (hcur : cur.physics = PhysicsType.Sand)
    (hcond : (g.pixels (x, y + 1)).physics ≠ PhysicsType.Air ∨
             ¬(r.rats r.ri > 1/10))
    (hgate : (g.pixels (x, y - 1)).physics = PhysicsType.Air ∨
             r.rats (if (g.pixels (x, y + 1)).physics = PhysicsType.Air
               then r.ri + 1 else r.ri) > 1/2) :
    (((g.pixels (x - 1, y + 1)).physics = PhysicsType.Air ∧
      (g.pixels (x + 1, y + 1)).physics ≠ PhysicsType.Air) →
      (simulate_pixel gridH x y cur g r).1 = some MaterialInstance.air ∧
      (simulate_pixel gridH x y cur g r).2.1.pixels =
        upd2 g.pixels (hopDestL g x y r) cur ∧
      (simulate_pixel gridH x y cur g r).2.1.colors =
        upd2 g.colors (hopDestL g x y r) cur.color ∧
      (simulate_pixel gridH x y cur g r).2.1.lights =
        upd2 g.lights (hopDestL g x y r) cur.light ∧
      (simulate_pixel gridH x y cur g r).2.1.particles = g.particles) ∧
    (((g.pixels (x - 1, y + 1)).physics ≠ PhysicsType.Air ∧
      (g.pixels (x + 1, y + 1)).physics = PhysicsType.Air) →
      (simulate_pixel gridH x y cur g r).1 = some MaterialInstance.air ∧
      (simulate_pixel gridH x y cur g r).2.1.pixels =
        upd2 g.pixels (hopDestR g x y r) cur ∧
      (simulate_pixel gridH x y cur g r).2.1.colors =
        upd2 g.colors (hopDestR g x y r) cur.color ∧
      (simulate_pixel gridH x y cur g r).2.1.lights =
        upd2 g.lights (hopDestR g x y r) cur.light ∧
      (simulate_pixel gridH x y cur g r).2.1.particles =
        g.particles) := by
  constructor
  · rintro ⟨hbl, hbr⟩
    have hbrb : ((g.pixels (x + 1, y + 1)).physics ==
        PhysicsType.Air) = false := by
      simp [hbr]
    have hmove : ∃ r2 : Rng, r2.bools = r.bools ∧ r2.bi = r.bi ∧
        simulate_pixel gridH x y cur g r =
          spreadMove gridH x y cur true false g r2 := by
      by_cases hbelow : (g.pixels (x, y + 1)).physics = PhysicsType.Air
      · have hqf : ¬(r.rats r.ri > 1/10) :=
          hcond.resolve_left (fun h => h hbelow)
        have hsim := simulate_pixel_spread_rand g x y cur r hcur hbelow
          (Or.inl hbl) hqf
        rw [hbl] at hsim
        simp only [beq_self_eq_true] at hsim
        rw [hbrb] at hsim
        by_cases hab : (g.pixels (x, y - 1)).physics = PhysicsType.Air
        · exact ⟨{ r with ri := r.ri + 1 }, rfl, rfl, by
            rw [hsim, spreadBranch_gate_above g x y cur true false
              { r with ri := r.ri + 1 } hab]⟩
        · have hqg := hgate.resolve_left hab
          rw [if_pos hbelow] at hqg
          exact ⟨{ r with ri := r.ri + 1 + 1 }, rfl, rfl, by
            rw [hsim, spreadBranch_gate_draw g x y cur true false
              { r with ri := r.ri + 1 } hab hqg]⟩
      · have hsim := simulate_pixel_spread_blocked g x y cur r hcur
          hbelow
        rw [hbl] at hsim
        simp only [beq_self_eq_true] at hsim
        rw [hbrb] at hsim
        by_cases hab : (g.pixels (x, y - 1)).physics = PhysicsType.Air
        · exact ⟨r, rfl, rfl, by
            rw [hsim,
              spreadBranch_gate_above g x y cur true false r hab]⟩
        · have hqg := hgate.resolve_left hab
          rw [if_neg hbelow] at hqg
          exact ⟨{ r with ri := r.ri + 1 }, rfl, rfl, by
            rw [hsim,
              spreadBranch_gate_draw g x y cur true false r hab hqg]⟩
    obtain ⟨r2, hrb, hri, hsim2⟩ := hmove
    rw [hsim2]
    by_cases hhop : hopGuardL g x y r
    · have hhopc : hopGuardL g x y r := hhop
      obtain ⟨hb0, hh1, hh2⟩ := hhop
      have hb2 : r2.bools r2.bi = true := by rw [hrb, hri]; exact hb0
      rw [spreadMove_left_hop g x y cur r2 hb2 hh1 hh2]
      have hd : hopDestL g x y r = (x - 2, y + 1) := by
        simp [hopDestL, hhopc]
      rw [hd]
      exact ⟨rfl, rfl, rfl, rfl, rfl⟩
    · have hno2 : ¬(r2.bools r2.bi = true ∧
          (g.pixels (x - 2, y + 1)).physics = PhysicsType.Air ∧
          (g.pixels (x - 2, y + 2)).physics ≠ PhysicsType.Air) := by
        rw [hrb, hri]
        exact hhop
      rw [spreadMove_left_diag g x y cur r2 hno2]
      have hd : hopDestL g x y r = (x - 1, y + 1) := by
        simp only [hopDestL, if_neg hhop]
      rw [hd]
      exact ⟨rfl, rfl, rfl, rfl, rfl⟩
  · rintro ⟨hbl, hbr⟩
    have hblb : ((g.pixels (x - 1, y + 1)).physics ==
        PhysicsType.Air) = false := by
      simp [hbl]
    have hmove : ∃ r2 : Rng, r2.bools = r.bools ∧ r2.bi = r.bi ∧
        simulate_pixel gridH x y cur g r =
          spreadMove gridH x y cur false true g r2 := by
      by_cases hbelow : (g.pixels (x, y + 1)).physics = PhysicsType.Air
      · have hqf : ¬(r.rats r.ri > 1/10) :=
          hcond.resolve_left (fun h => h hbelow)
        have hsim := simulate_pixel_spread_rand g x y cur r hcur hbelow
          (Or.inr hbr) hqf
        rw [hbr] at hsim
        simp only [beq_self_eq_true] at hsim
        rw [hblb] at hsim
        by_cases hab : (g.pixels (x, y - 1)).physics = PhysicsType.Air
        · exact ⟨{ r with ri := r.ri + 1 }, rfl, rfl, by
            rw [hsim, spreadBranch_gate_above g x y cur false true
              { r with ri := r.ri + 1 } hab]⟩
        · have hqg := hgate.resolve_left hab
          rw [if_pos hbelow] at hqg
          exact ⟨{ r with ri := r.ri + 1 + 1 }, rfl, rfl, by
            rw [hsim, spreadBranch_gate_draw g x y cur false true
              { r with ri := r.ri + 1 } hab hqg]⟩
      · have hsim := simulate_pixel_spread_blocked g x y cur r hcur
          hbelow
        rw [hbr] at hsim
        simp only [beq_self_eq_true] at hsim
        rw [hblb] at hsim
        by_cases hab : (g.pixels (x, y - 1)).physics = PhysicsType.Air
        · exact ⟨r, rfl, rfl, by
            rw [hsim,
              spreadBranch_gate_above g x y cur false true r hab]⟩
        · have hqg := hgate.resolve_left hab
          rw [if_neg hbelow] at hqg
          exact ⟨{ r with ri := r.ri + 1 }, rfl, rfl, by
            rw [hsim,
              spreadBranch_gate_draw g x y cur false true r hab hqg]⟩
    obtain ⟨r2, hrb, hri, hsim2⟩ := hmove
    rw [hsim2]
    by_cases hhop : hopGuardR g x y r
    · have hhopc : hopGuardR g x y r := hhop
      obtain ⟨hb0, hh1, hh2⟩ := hhop
      have hb2 : r2.bools r2.bi = true := by rw [hrb, hri]; exact hb0
      rw [spreadMove_right_hop g x y cur r2 hb2 hh1 hh2]
      have hd : hopDestR g x y r = (x + 2, y + 1) := by
        simp [hopDestR, hhopc]
      rw [hd]
      exact ⟨rfl, rfl, rfl, rfl, rfl⟩
    · have hno2 : ¬(r2.bools r2.bi = true ∧
          (g.pixels (x + 2, y + 1)).physics = PhysicsType.Air ∧
          (g.pixels (x + 2, y + 2)).physics ≠ PhysicsType.Air) := by
        rw [hrb, hri]
        exact hhop
      rw [spreadMove_right_diag g x y cur r2 hno2]
      have hd : hopDestR g x y r = (x + 1, y + 1) := by
        simp only [hopDestR, if_neg hhop]
      rw [hd]
      exact ⟨rfl, rfl, rfl, rfl, rfl⟩

/-- A grid with a single sand pixel at the origin and air everywhere
else. -/
def gI : GridState :=
  { pixels := fun p => if p = (0, 0) then sandM else MaterialInstance.air
    colors := fun _ => { r := 0, g := 0, b := 0, a := 0 }
    lights := fun _ => (0, 0, 0)
    particles := [] }

theorem isolated_sand_one_destination_witness :
    ((gI.pixels (0, 0)).physics = PhysicsType.Sand ∧
     (gI.pixels (0, 0 + 1)).physics = PhysicsType.Air ∧
     (gI.pixels (0 - 1, 0 + 1)).physics = PhysicsType.Air ∧
     (gI.pixels (0 + 1, 0 + 1)).physics = PhysicsType.Air ∧
     (gI.pixels (0, 0 + 2)).physics = PhysicsType.Air ∧
     (gI.pixels (0, 0 + 3)).physics = PhysicsType.Air ∧
     (gI.pixels (0, 0 + 4)).physics = PhysicsType.Air ∧
     (gI.pixels (0, 0 + 5)).physics = PhysicsType.Air ∧
     (gI.pixels (0, 0 - 1)).physics = PhysicsType.Air) ∧
    ((processStep gridH 0 0 gI rngW).1.pixels (0, 0) =
        MaterialInstance.air ∧
     (((∃ d : Int × Int, d ≠ (0, 0) ∧
         (processStep gridH 0 0 gI rngW).1.pixels d = gI.pixels (0, 0) ∧
         (processStep gridH 0 0 gI rngW).1.pixels d ≠ gI.pixels d ∧
         (∀ e : Int × Int, e ≠ (0, 0) → e ≠ d →
           (processStep gridH 0 0 gI rngW).1.pixels e = gI.pixels e)) ∧
       (processStep gridH 0 0 gI rngW).1.particles = gI.particles) ∨
      ((∀ e : Int × Int, e ≠ (0, 0) →
         (processStep gridH 0 0 gI rngW).1.pixels e = gI.pixels e) ∧
       ∃ p : Particle,
         (processStep gridH 0 0 gI rngW).1.particles =
           gI.particles ++ [p] ∧
         p.material = gI.pixels (0, 0)))) :=
  ⟨⟨by simp [gI, sandM], by simp [gI, sandM, MaterialInstance.air],
    by simp [gI, sandM, MaterialInstance.air],
    by simp [gI, sandM, MaterialInstance.air],
    by simp [gI, sandM, MaterialInstance.air],
    by simp [gI, sandM, MaterialInstance.air],
    by simp [gI, sandM, MaterialInstance.air],
    by simp [gI, sandM, MaterialInstance.air],
    by simp [gI, sandM, MaterialInstance.air]⟩,
   isolated_sand_one_destination gI 0 0 rngW
     (by simp [gI, sandM])
     (by simp [gI, sandM, MaterialInstance.air])
     (by simp [gI, sandM, MaterialInstance.air])
     (by simp [gI, sandM, MaterialInstance.air])
     (by simp [gI, sandM, MaterialInstance.air])
     (by simp [gI, sandM, MaterialInstance.air])
     (by simp [gI, sandM, MaterialInstance.air])
     (by simp [gI, sandM, MaterialInstance.air])
     (by simp [gI, sandM, MaterialInstance.air])⟩

theorem diag_hop_amended_witness :
    (sandM.physics = PhysicsType.Sand ∧
     ((gH.pixels (0, 0 + 1)).physics ≠ PhysicsType.Air ∨
      ¬(rngW.rats rngW.ri > 1/10)) ∧
     ((gH.pixels (0, 0 - 1)).physics = PhysicsType.Air ∨
      rngW.rats (if (gH.pixels (0, 0 + 1)).physics = PhysicsType.Air
        then rngW.ri + 1 else rngW.ri) > 1/2)) ∧
    ((((gH.pixels (0 - 1, 0 + 1)).physics = PhysicsType.Air ∧
       (gH.pixels (0 + 1, 0 + 1)).physics ≠ PhysicsType.Air) →
       (simulate_pixel gridH 0 0 sandM gH rngW).1 =
         some MaterialInstance.air ∧
       (simulate_pixel gridH 0 0 sandM gH rngW).2.1.pixels =
         upd2 gH.pixels (hopDestL gH 0 0 rngW) sandM ∧
       (simulate_pixel gridH 0 0 sandM gH rngW).2.1.colors =
         upd2 gH.colors (hopDestL gH 0 0 rngW) sandM.color ∧
       (simulate_pixel gridH 0 0 sandM gH rngW).2.1.lights =
         upd2 gH.lights (hopDestL gH 0 0 rngW) sandM.light ∧
       (simulate_pixel gridH 0 0 sandM gH rngW).2.1.particles =
         gH.particles) ∧
     (((gH.pixels (0 - 1, 0 + 1)).physics ≠ PhysicsType.Air ∧
       (gH.pixels (0 + 1, 0 + 1)).physics = PhysicsType.Air) →
       (simulate_pixel gridH 0 0 sandM gH rngW).1 =
         some MaterialInstance.air ∧
       (simulate_pixel gridH 0 0 sandM gH rngW).2.1.pixels =
         upd2 gH.pixels (hopDestR gH 0 0 rngW) sandM ∧
       (simulate_pixel gridH 0 0 sandM gH rngW).2.1.colors =
         upd2 gH.colors (hopDestR gH 0 0 rngW) sandM.color ∧
       (simulate_pixel gridH 0 0 sandM gH rngW).2.1.lights =
         upd2 gH.lights (hopDestR gH 0 0 rngW) sandM.light ∧
       (simulate_pixel gridH 0 0 sandM gH rngW).2.1.particles =
         gH.particles)) :=
  ⟨⟨rfl, Or.inl (by simp [gH, sandM, solidM]),
    Or.inl (by simp [gH, sandM, solidM, MaterialInstance.air])⟩,
   diag_hop_amended gH 0 0 sandM rngW rfl
     (Or.inl (by simp [gH, sandM, solidM]))
     (Or.inl (by simp [gH, sandM, solidM, MaterialInstance.air]))⟩

/-- Modelled from the spec: the axis-aligned rectangle Rect of
common/Rect (not under src), built by new_wh(x, y, w, h); range_lr
iterates columns left to right and range_tb rows top to bottom, both
covering the whole rectangle. -/
structure Rect where
  x : Int
  y : Int
  w : Nat
  h : Nat
  deriving DecidableEq, Repr

/-- Modelled from the spec: the left-to-right column range of a Rect. -/
def Rect.range_lr (rc : Rect) : List Int :=
  (List.range rc.w).map (fun i : Nat => rc.x + (i : Int))

/-- Modelled from the spec: the top-to-bottom row range of a Rect. -/
def Rect.range_tb (rc : Rect) : List Int :=
  (List.range rc.h).map (fun i : Nat => rc.y + (i : Int))

/-- SimulatorChunkContext (simulator.rs lines 502-509): one chunk's
pixel, color and light buffers plus the dirty flag and dirty
rectangle.  Buffers are modelled as total maps from flat indices; the
in-range accesses proven in this file are the ones the source
performs. -/
structure ChunkCtx where
  pixels : Nat → MaterialInstance
  colors : Nat → Nat
  lights : Nat → ℚ × ℚ × ℚ × ℚ
  dirty : Bool
  dirty_rect : Option Rect

/-- Pointwise update of a map from naturals. -/
def updFn {α : Type} (f : Nat → α) (i : Nat) (v : α) : Nat → α :=
  fun j => if j = i then v else f j

/-- SimulationHelperChunk (simulator.rs lines 32-41): the nine borrowed
chunk contexts, the per-chunk min/max dirty trackers, the shared
particle list and the center chunk coordinates.  The two ghost fields
written (per chunk, the chunk-local coordinates passed to
set_pixel_from_index, in order) and accessed (every local coordinate
passed to any helper operation) record what the step touched; they
drive no behavior. -/
structure SHC where
  chunkData : Nat → ChunkCtx
  minX : Nat → Nat
  minY : Nat → Nat
  maxX : Nat → Nat
  maxY : Nat → Nat
  particles : List Particle
  chunkX : Int
  chunkY : Int
  written : Nat → List (Nat × Nat)
  accessed : List (Int × Int)

/-- get_pixel_from_index / borrow_pixel_from_index (lines 46-53). -/
def SHC.getPixelFromIndex (s : SHC) (idx : Nat × Nat × Nat × Nat) :
    MaterialInstance :=
  (s.chunkData idx.1).pixels idx.2.1

/-- set_pixel_from_index (lines 86-97): write the pixel and fold the
chunk-local coordinate into the min/max trackers of that chunk. -/
def SHC.setPixelFromIndex (s : SHC) (idx : Nat × Nat × Nat × Nat)
    (mat : MaterialInstance) : SHC :=
  { s with
    chunkData := updFn s.chunkData idx.1
      { s.chunkData idx.1 with
        pixels := updFn (s.chunkData idx.1).pixels idx.2.1 mat }
    minX := updFn s.minX idx.1 (Nat.min (s.minX idx.1) idx.2.2.1)
    minY := updFn s.minY idx.1 (Nat.min (s.minY idx.1) idx.2.2.2)
    maxX := updFn s.maxX idx.1 (Nat.max (s.maxX idx.1) idx.2.2.1)
    maxY := updFn s.maxY idx.1 (Nat.max (s.maxY idx.1) idx.2.2.2)
    written := updFn s.written idx.1
      (s.written idx.1 ++ [(idx.2.2.1, idx.2.2.2)]) }

/-- set_color_from_index (lines 169-176): write the four color bytes
and set the dirty flag of that chunk. -/
def SHC.setColorFromIndex (s : SHC) (idx : Nat × Nat × Nat × Nat)
    (c : Color) : SHC :=
  let cd := s.chunkData idx.1
  { s with
    chunkData := updFn s.chunkData idx.1
      { cd with
        colors := updFn (updFn (updFn (updFn cd.colors
          (idx.2.1 * 4) c.r) (idx.2.1 * 4 + 1) c.g)
          (idx.2.1 * 4 + 2) c.b) (idx.2.1 * 4 + 3) c.a
        dirty := true } }

/-- set_light_from_index (lines 255-257): store the light triple with
a trailing 1. -/
def SHC.setLightFromIndex (s : SHC) (idx : Nat × Nat × Nat × Nat)
    (l : ℚ × ℚ × ℚ) : SHC :=
  { s with
    chunkData := updFn s.chunkData idx.1
      { s.chunkData idx.1 with
        lights := updFn (s.chunkData idx.1).lights idx.2.1
          (l.1, l.2.1, l.2.2, 1) } }

/-- The SimulationHelper implementation for SimulationHelperChunk
(lines 307-352): every operation routes its local coordinate through
local_to_indices; add_particle offsets the position by the center
chunk's world offset before pushing (lines 334-343).  Each operation
also records the local coordinate in the ghost access log. -/
def chunkH (CS : Nat) : SHelper SHC where
  borrowPixel := fun s x y =>
    (s.getPixelFromIndex (local_to_indices CS x y),
     { s with accessed := s.accessed ++ [(x, y)] })
  setPixel := fun s x y m =>
    { s.setPixelFromIndex (local_to_indices CS x y) m with
      accessed := s.accessed ++ [(x, y)] }
  setColor := fun s x y c =>
    { s.setColorFromIndex (local_to_indices CS x y) c with
      accessed := s.accessed ++ [(x, y)] }
  setLight := fun s x y l =>
    { s.setLightFromIndex (local_to_indices CS x y) l with
      accessed := s.accessed ++ [(x, y)] }
  addParticle := fun s m p v =>
    { s with particles := s.particles ++
        [⟨m, (p.1 + (s.chunkX : ℚ) * (CS : ℚ),
              p.2 + (s.chunkY : ℚ) * (CS : ℚ)), v⟩] }

/-- finish_dirty_rects (lines 291-304): convert each of the nine
chunks' trackers into a tight rectangle, or none when the sentinel is
still in place. -/
def SHC.finishDirtyRects (CS : Nat) (s : SHC) : SHC :=
  { s with chunkData := fun i =>
      if i < 9 then
        if s.minX i = CS + 1 then
          { s.chunkData i with dirty_rect := none }
        else
          { s.chunkData i with
            dirty_rect := some (Rect.mk (s.minX i : Int) (s.minY i : Int)
                (s.maxX i - s.minX i + 1) (s.maxY i - s.minY i + 1)) }
      else s.chunkData i }

/-- The traversal order of the dirty rectangle in simulate_chunk
(lines 566-580): rows from the bottom edge upward (range_tb reversed),
and one whole-step coin choosing the column direction of every row. -/
def scanCoords (rect : Rect) (coin : Bool) : List (Int × Int) :=
  if coin then
    (rect.range_tb.reverse).flatMap
      (fun y => rect.range_lr.map (fun x => (x, y)))
  else
    (rect.range_tb.reverse).flatMap
      (fun y => (rect.range_lr.reverse).map (fun x => (x, y)))

/-- Simulator::simulate_chunk (simulator.rs lines 514-583): when the
center chunk has no dirty rectangle, clear all nine dirty rectangles
and return; otherwise initialize the trackers to the sentinel values,
draw the per-step coin, fold the process body over the scan order, and
finish the dirty rectangles.  Returns the final helper state,
including the ghost logs. -/
def simulate_chunk (CS : Nat) (chunkX chunkY : Int)
    (chunkData : Nat → ChunkCtx) (particles : List Particle)
    (r : Rng) : SHC :=
  match (chunkData 4).dirty_rect with
  | none =>
    { chunkData := fun i =>
        if i < 9 then { chunkData i with dirty_rect := none }
        else chunkData i
      minX := fun _ => CS + 1, minY := fun _ => CS + 1
      maxX := fun _ => 0, maxY := fun _ => 0
      particles := particles, chunkX := chunkX, chunkY := chunkY
      written := fun _ => [], accessed := [] }
  | some rect =>
    let s0 : SHC :=
      { chunkData := chunkData
        minX := fun _ => CS + 1, minY := fun _ => CS + 1
        maxX := fun _ => 0, maxY := fun _ => 0
        particles := particles, chunkX := chunkX, chunkY := chunkY
        written := fun _ => [], accessed := [] }
    let (coin, r) := r.bool
    let sr := (scanCoords rect coin).foldl
      (fun (sr : SHC × Rng) xy =>
        processStep (chunkH CS) xy.1 xy.2 sr.1 sr.2) (s0, r)
    sr.1.finishDirtyRects CS

/-- One external call of simulate_chunk seen as a transformer of the
nine chunk contexts and the particle list. -/
def simulateChunkStep (CS : Nat) (cx cy : Int)
    (st : (Nat → ChunkCtx) × List Particle) (r : Rng) :
    (Nat → ChunkCtx) × List Particle :=
  let s := simulate_chunk CS cx cy st.1 st.2 r
  (s.chunkData, s.particles)

/-- Repeated calls of simulate_chunk, one fresh generator per call. -/
def simulateChunkIter (CS : Nat) (cx cy : Int) (rs : Nat → Rng) :
    Nat → ((Nat → ChunkCtx) × List Particle) →
    ((Nat → ChunkCtx) × List Particle)
  | 0, st => st
  | n + 1, st =>
    simulateChunkIter CS cx cy rs n (simulateChunkStep CS cx cy st (rs n))

/-- C5: when the center context has no dirty rectangle, simulate_chunk
clears all nine dirty rectangles and does nothing else: no pixel,
color or light buffer changes, no particle is appended, no pixel write
is recorded; and any number of repeated calls leaves the state at that
same cleared value. -/
theorem idle_skip_noop (CS : Nat) (cx cy : Int) (cd : Nat → ChunkCtx)
    (ps : List Particle) (r : Rng) (rs : Nat → Rng)
    (h : (cd 4).dirty_rect = none) :
    (simulate_chunk CS cx cy cd ps r).particles = ps ∧
    (∀ i : Nat,
      ((simulate_chunk CS cx cy cd ps r).chunkData i).pixels =
        (cd i).pixels ∧
      ((simulate_chunk CS cx cy cd ps r).chunkData i).colors =
        (cd i).colors ∧
      ((simulate_chunk CS cx cy cd ps r).chunkData i).lights =
        (cd i).lights) ∧
    (∀ i : Nat, i < 9 →
      ((simulate_chunk CS cx cy cd ps r).chunkData i).dirty_rect =
        none) ∧
    (∀ i : Nat, (simulate_chunk CS cx cy cd ps r).written i = []) ∧
    (∀ n : Nat, 1 ≤ n →
      simulateChunkIter CS cx cy rs n (cd, ps) =
        ((fun i => if i < 9 then { cd i with dirty_rect := none }
          else cd i), ps)) := by
  have hstep : simulate_chunk CS cx cy cd ps r =
      { chunkData := fun i =>
          if i < 9 then { cd i with dirty_rect := none } else cd i
        minX := fun _ => CS + 1, minY := fun _ => CS + 1
        maxX := fun _ => 0, maxY := fun _ => 0
        particles := ps, chunkX := cx, chunkY := cy
        written := fun _ => [], accessed := [] } := by
    simp [simulate_chunk, h]
  have hfix : ∀ (cd2 : Nat → ChunkCtx) (r2 : Rng),
      (cd2 4).dirty_rect = none →
      simulateChunkStep CS cx cy (cd2, ps) r2 =
        ((fun i => if i < 9 then { cd2 i with dirty_rect := none }
          else cd2 i), ps) := by
    intro cd2 r2 h2
    simp [simulateChunkStep, simulate_chunk, h2]
  have hclear : ∀ i : Nat,
      (if i < 9 then { cd i with dirty_rect := none } else cd i) =
        (fun j => if j < 9 then { cd j with dirty_rect := none }
          else cd j) i := fun _ => rfl
  refine ⟨by rw [hstep], ?_, ?_, ?_, ?_⟩
  · intro i
    rw [hstep]
    by_cases hi : i < 9 <;> simp [hi]
  · intro i hi
    rw [hstep]
    simp [hi]
  · intro i
    rw [hstep]
  · -- iterated calls stay at the cleared state
    have hidem : ∀ r2 : Rng,
        simulateChunkStep CS cx cy
          ((fun i => if i < 9 then { cd i with dirty_rect := none }
            else cd i), ps) r2 =
          ((fun i => if i < 9 then { cd i with dirty_rect := none }
            else cd i), ps) := by
      intro r2
      rw [hfix _ r2 (by simp)]
      refine Prod.ext ?_ rfl
      funext i
      by_cases hi : i < 9 <;> simp [hi]
    have hiter : ∀ (n : Nat),
        simulateChunkIter CS cx cy rs n
          ((fun i => if i < 9 then { cd i with dirty_rect := none }
            else cd i), ps) =
          ((fun i => if i < 9 then { cd i with dirty_rect := none }
            else cd i), ps) := by
      intro n
      induction n with
      | zero => rfl
      | succ m ih =>
        simp only [simulateChunkIter]
        rw [hidem (rs m)]
        exact ih
    intro n hn
    obtain ⟨m, rfl⟩ : ∃ m, n = m + 1 := ⟨n - 1, by omega⟩
    simp only [simulateChunkIter]
    rw [hfix cd (rs m) h]
    exact hiter m

theorem revRange (n : Nat) :
    (List.range n).reverse = (List.range n).map (fun i => n - 1 - i) := by
  rw [List.range_eq_range', List.reverse_range', ← List.range_eq_range']
  simp

/-- C6: the traversal of the dirty rectangle visits row j (counting
from zero) at vertical coordinate bottom-edge minus j, so rows run
from the bottom edge up to the top edge, and every row uses the same
column direction, chosen once per step: ascending from the left edge
when the coin is true, descending from the right edge otherwise; and
simulate_chunk with a dirty center folds the process body over exactly
this traversal, with the coin drawn once from the generator before the
loop. -/
theorem scan_order_spec (rect : Rect) (coin : Bool) :
    scanCoords rect coin =
      (List.range rect.h).flatMap (fun (j : Nat) =>
        (List.range rect.w).map (fun (i : Nat) =>
          (rect.x + (((if coin then i else rect.w - 1 - i) : Nat) : Int),
           rect.y + (((rect.h - 1 - j) : Nat) : Int)))) ∧
    ∀ (CS : Nat) (cx cy : Int) (cd : Nat → ChunkCtx)
      (ps : List Particle) (r : Rng),
      (cd 4).dirty_rect = some rect →
      simulate_chunk CS cx cy cd ps r =
        (((scanCoords rect (r.bools r.bi)).foldl
          (fun (sr : SHC × Rng) xy =>
            processStep (chunkH CS) xy.1 xy.2 sr.1 sr.2)
          ({ chunkData := cd
             minX := fun _ => CS + 1, minY := fun _ => CS + 1
             maxX := fun _ => 0, maxY := fun _ => 0
             particles := ps, chunkX := cx, chunkY := cy
             written := fun _ => [], accessed := [] },
           { r with bi := r.bi + 1 })).1).finishDirtyRects CS := by
  constructor
  · cases coin
    · unfold scanCoords Rect.range_tb Rect.range_lr
      rw [if_neg (by simp), ← List.map_reverse, revRange, List.map_map,
        List.flatMap_map]
      simp only [← List.map_reverse, revRange, List.map_map]
      simp [Function.comp_def, List.map_map]
    · unfold scanCoords Rect.range_tb Rect.range_lr
      rw [if_pos rfl, ← List.map_reverse, revRange, List.map_map,
        List.flatMap_map]
      simp [Function.comp_def, List.map_map]
  · intro CS cx cy cd ps r h
    simp [simulate_chunk, h, Rng.bool]

theorem allAir_preserves {σ : Type} (H : SHelper σ) (P : σ → Prop)
    (hb : ∀ s x y, P s → P (H.borrowPixel s x y).2) :
    ∀ (l : List (Int × Int)) (s : σ), P s → P (allAir H s l).2 := by
  intro l
  induction l with
  | nil => intro s h; exact h
  | cons hd tl ih =>
    intro s h
    obtain ⟨a, b⟩ := hd
    have hnext := hb s a b h
    rcases hpair : H.borrowPixel s a b with ⟨p, s1⟩
    rw [hpair] at hnext
    simp only [allAir, hpair]
    split
    · exact ih s1 hnext
    · exact hnext

/-- Every state reachable from one evaluation of simulate_pixel is
reached through the five helper operations only, so any property
preserved by each operation is preserved by the whole evaluation. -/
theorem simulate_pixel_preserves {σ : Type} (H : SHelper σ)
    (P : σ → Prop)
    (hb : ∀ s x y, P s → P (H.borrowPixel s x y).2)
    (hsp : ∀ s x y m, P s → P (H.setPixel s x y m))
    (hsc : ∀ s x y c, P s → P (H.setColor s x y c))
    (hsl : ∀ s x y l, P s → P (H.setLight s x y l))
    (hap : ∀ s m p v, P s → P (H.addParticle s m p v)) :
    ∀ (x y : Int) (cur : MaterialInstance) (s : σ) (r : Rng),
      P s → P (simulate_pixel H x y cur s r).2.1 := by
  have hw : ∀ (s : σ) (a b : Int) (m : MaterialInstance), P s →
      P (H.setPixel (H.setLight (H.setColor s a b m.color) a b m.light)
        a b m) :=
    fun s a b m h => hsp _ _ _ _ (hsl _ _ _ _ (hsc _ _ _ _ h))
  intro x y cur s r hP
  unfold simulate_pixel
  split
  case isFalse => exact hP
  case isTrue =>
    rcases h1 : H.borrowPixel s x (y + 1) with ⟨below, s1⟩
    have hP1 : P s1 := by have h := hb s x (y + 1) hP; rwa [h1] at h
    rcases h2 : H.borrowPixel s1 (x - 1) (y + 1) with ⟨bl, s2⟩
    have hP2 : P s2 := by
      have h := hb s1 (x - 1) (y + 1) hP1; rwa [h2] at h
    rcases h3 : H.borrowPixel s2 (x + 1) (y + 1) with ⟨br, s3⟩
    have hP3 : P s3 := by
      have h := hb s2 (x + 1) (y + 1) hP2; rwa [h3] at h
    simp only [h1, h2, h3]
    have hfall : ∀ r2 : Rng, P (fallBranch H x y cur s3 r2).2.1 := by
      intro r2
      unfold fallBranch
      rcases h4 : allAir H s3
          [(x, y + 2), (x, y + 3), (x, y + 4), (x, y + 5)] with ⟨eb, s4⟩
      have hP4 : P s4 := by
        have h := allAir_preserves H P hb
          [(x, y + 2), (x, y + 3), (x, y + 4), (x, y + 5)] s3 hP3
        rwa [h4] at h
      simp only [h4]
      split
      · exact hap _ _ _ _ hP4
      · rcases h5 : H.borrowPixel s4 x (y + 2) with ⟨p2, s5⟩
        have hP5 : P s5 := by
          have h := hb s4 x (y + 2) hP4; rwa [h5] at h
        simp only [Rng.bool, h5]
        split
        · split
          · exact hw _ _ _ _ hP5
          · exact hw _ _ _ _ hP5
        · exact hw _ _ _ _ hP4
    have hspread : ∀ (c1 c2 : Bool) (r2 : Rng),
        P (spreadBranch H x y cur c1 c2 s3 r2).2.1 := by
      intro c1 c2 r2
      unfold spreadBranch
      rcases h6 : H.borrowPixel s3 x (y - 1) with ⟨above, s6⟩
      have hP6 : P s6 := by
        have h := hb s3 x (y - 1) hP3; rwa [h6] at h
      simp only [h6]
      have hmv : ∀ r3 : Rng, P (spreadMove H x y cur c1 c2 s6 r3).2.1 := by
        intro r3
        unfold spreadMove
        split
        · simp only [Rng.bool]
          split
          · exact hw _ _ _ _ hP6
          · exact hw _ _ _ _ hP6
        · split
          · simp only [Rng.bool]
            rcases h7 : H.borrowPixel s6 (x - 2) (y + 1) with ⟨pa, s7⟩
            have hP7 : P s7 := by
              have h := hb s6 (x - 2) (y + 1) hP6; rwa [h7] at h
            rcases h8 : H.borrowPixel s7 (x - 2) (y + 2) with ⟨pb, s8⟩
            have hP8 : P s8 := by
              have h := hb s7 (x - 2) (y + 2) hP7; rwa [h8] at h
            split
            · rename_i hcoin
              simp only [h7]
              split
              · simp only [h8]
                split
                · exact hw _ _ _ _ hP8
                · exact hw _ _ _ _ hP8
              · split
                · exact hw _ _ _ _ hP7
                · exact hw _ _ _ _ hP7
            · split
              · exact hw _ _ _ _ hP6
              · exact hw _ _ _ _ hP6
          · split
            · simp only [Rng.bool]
              rcases h7 : H.borrowPixel s6 (x + 2) (y + 1) with ⟨pa, s7⟩
              have hP7 : P s7 := by
                have h := hb s6 (x + 2) (y + 1) hP6; rwa [h7] at h
              rcases h8 : H.borrowPixel s7 (x + 2) (y + 2) with ⟨pb, s8⟩
              have hP8 : P s8 := by
                have h := hb s7 (x + 2) (y + 2) hP7; rwa [h8] at h
              split
              · simp only [h7]
                split
                · simp only [h8]
                  split
                  · exact hw _ _ _ _ hP8
                  · exact hw _ _ _ _ hP8
                · split
                  · exact hw _ _ _ _ hP7
                  · exact hw _ _ _ _ hP7
              · split
                · exact hw _ _ _ _ hP6
                · exact hw _ _ _ _ hP6
            · exact hP6
      split
      · exact hmv _
      · simp only [Rng.f32]
        split
        · exact hmv _
        · exact hP6
    split
    · split
      · exact hfall _
      · simp only [Rng.f32]
        split
        · exact hfall _
        · exact hspread _ _ _
    · exact hspread _ _ _

theorem foldl_min_le_init (l : List Nat) :
    ∀ i : Nat, l.foldl Nat.min i ≤ i := by
  induction l with
  | nil => intro i; exact Nat.le_refl i
  | cons a tl ih =>
    intro i
    calc (a :: tl).foldl Nat.min i = tl.foldl Nat.min (Nat.min i a) := rfl
    _ ≤ Nat.min i a := ih _
    _ ≤ i := Nat.min_le_left _ _

theorem foldl_min_le_mem (l : List Nat) :
    ∀ (i : Nat) (a : Nat), a ∈ l → l.foldl Nat.min i ≤ a := by
  induction l with
  | nil => intro i a h; exact absurd h (List.not_mem_nil a)
  | cons b tl ih =>
    intro i a h
    rcases List.mem_cons.mp h with rfl | h
    · calc (a :: tl).foldl Nat.min i = tl.foldl Nat.min (Nat.min i a) := rfl
      _ ≤ Nat.min i a := foldl_min_le_init tl _
      _ ≤ a := Nat.min_le_right _ _
    · exact ih _ a h

theorem foldl_min_choice (l : List Nat) :
    ∀ i : Nat, l.foldl Nat.min i = i ∨ l.foldl Nat.min i ∈ l := by
  induction l with
  | nil => intro i; exact Or.inl rfl
  | cons a tl ih =>
    intro i
    rcases ih (Nat.min i a) with h | h
    · rcases Nat.le_total i a with hle | hle
      · left
        calc (a :: tl).foldl Nat.min i = tl.foldl Nat.min (Nat.min i a) :=
          rfl
        _ = Nat.min i a := h
        _ = i := Nat.min_eq_left hle
      · right
        have hv : (a :: tl).foldl Nat.min i = a := by
          calc (a :: tl).foldl Nat.min i
              = tl.foldl Nat.min (Nat.min i a) := rfl
          _ = Nat.min i a := h
          _ = a := Nat.min_eq_right hle
        rw [hv]
        exact List.mem_cons_self a tl
    · right
      exact List.mem_cons_of_mem a h

theorem foldl_max_init_le (l : List Nat) :
    ∀ i : Nat, i ≤ l.foldl Nat.max i := by
  induction l with
  | nil => intro i; exact Nat.le_refl i
  | cons a tl ih =>
    intro i
    calc i ≤ Nat.max i a := Nat.le_max_left _ _
    _ ≤ tl.foldl Nat.max (Nat.max i a) := ih _
    _ = (a :: tl).foldl Nat.max i := rfl

theorem foldl_max_mem_le (l : List Nat) :
    ∀ (i : Nat) (a : Nat), a ∈ l → a ≤ l.foldl Nat.max i := by
  induction l with
  | nil => intro i a h; exact absurd h (List.not_mem_nil a)
  | cons b tl ih =>
    intro i a h
    rcases List.mem_cons.mp h with rfl | h
    · calc a ≤ Nat.max i a := Nat.le_max_right _ _
      _ ≤ tl.foldl Nat.max (Nat.max i a) := foldl_max_init_le tl _
      _ = (a :: tl).foldl Nat.max i := rfl
    · exact ih _ a h

theorem foldl_max_choice (l : List Nat) :
    ∀ i : Nat, l.foldl Nat.max i = i ∨ l.foldl Nat.max i ∈ l := by
  induction l with
  | nil => intro i; exact Or.inl rfl
  | cons a tl ih =>
    intro i
    rcases ih (Nat.max i a) with h | h
    · rcases Nat.le_total i a with hle | hle
      · right
        have hv : (a :: tl).foldl Nat.max i = a := by
          calc (a :: tl).foldl Nat.max i
              = tl.foldl Nat.max (Nat.max i a) := rfl
          _ = Nat.max i a := h
          _ = a := Nat.max_eq_right hle
        rw [hv]
        exact List.mem_cons_self a tl
      · left
        calc (a :: tl).foldl Nat.max i = tl.foldl Nat.max (Nat.max i a) :=
          rfl
        _ = Nat.max i a := h
        _ = i := Nat.max_eq_left hle
    · right
      exact List.mem_cons_of_mem a h

/-- The tracker invariant of the chunk helper: each chunk's min/max
trackers are exactly the folded minima and maxima of the ghost list of
pixel writes into that chunk (with the sentinel initial values of
simulate_chunk), and every recorded chunk-local coordinate is in
range. -/
def ChunkInv (CS : Nat) (s : SHC) : Prop :=
  ∀ i : Nat,
    s.minX i = ((s.written i).map Prod.fst).foldl Nat.min (CS + 1) ∧
    s.minY i = ((s.written i).map Prod.snd).foldl Nat.min (CS + 1) ∧
    s.maxX i = ((s.written i).map Prod.fst).foldl Nat.max 0 ∧
    s.maxY i = ((s.written i).map Prod.snd).foldl Nat.max 0 ∧
    ∀ p ∈ s.written i, p.1 < CS ∧ p.2 < CS

theorem chunkH_borrow_inv (CS : Nat) (s : SHC) (x y : Int)
    (h : ChunkInv CS s) :
    ChunkInv CS ((chunkH CS).borrowPixel s x y).2 := h

theorem updFn_same {α : Type} (f : Nat → α) (i : Nat) (v : α) :
    updFn f i v i = v := by
  simp [updFn]

theorem updFn_ne {α : Type} (f : Nat → α) (i : Nat) (v : α) (j : Nat)
    (h : j ≠ i) : updFn f i v j = f j := by
  simp [updFn, h]

theorem local_to_indices_px_lt (CS : Nat) (hCS : 0 < CS) (x y : Int) :
    (local_to_indices CS x y).2.2.1 < CS ∧
    (local_to_indices CS x y).2.2.2 < CS := by
  have hne : (CS : Int) ≠ 0 := by exact_mod_cast hCS.ne'
  have h0 : (0 : Int) < (CS : Int) := by exact_mod_cast hCS
  have ha : Int.emod x (CS : Int) < (CS : Int) := Int.emod_lt_of_pos x h0
  have hb : 0 ≤ Int.emod x (CS : Int) := Int.emod_nonneg x hne
  have hc : Int.emod y (CS : Int) < (CS : Int) := Int.emod_lt_of_pos y h0
  have hd : 0 ≤ Int.emod y (CS : Int) := Int.emod_nonneg y hne
  simp only [local_to_indices]
  omega

theorem chunkH_setPixel_inv (CS : Nat) (hCS : 0 < CS) (s : SHC)
    (x y : Int) (m : MaterialInstance) (h : ChunkInv CS s) :
    ChunkInv CS ((chunkH CS).setPixel s x y m) := by
  intro i
  obtain ⟨hx, hy⟩ := local_to_indices_px_lt CS hCS x y
  obtain ⟨h1, h2, h3, h4, h5⟩ := h i
  simp only [chunkH, SHC.setPixelFromIndex]
  by_cases hi : i = (local_to_indices CS x y).1
  · subst hi
    simp only [updFn_same]
    refine ⟨?_, ?_, ?_, ?_, ?_⟩
    · rw [h1, List.map_append, List.foldl_append]
      rfl
    · rw [h2, List.map_append, List.foldl_append]
      rfl
    · rw [h3, List.map_append, List.foldl_append]
      rfl
    · rw [h4, List.map_append, List.foldl_append]
      rfl
    · intro p hp
      rcases List.mem_append.mp hp with hp | hp
      · exact h5 p hp
      · rcases List.mem_singleton.mp hp with rfl
        exact ⟨hx, hy⟩
  · simp only [updFn_ne _ _ _ _ hi]
    exact ⟨h1, h2, h3, h4, h5⟩

theorem chunkH_setColor_inv (CS : Nat) (s : SHC) (x y : Int) (c : Color)
    (h : ChunkInv CS s) :
    ChunkInv CS ((chunkH CS).setColor s x y c) := h

theorem chunkH_setLight_inv (CS : Nat) (s : SHC) (x y : Int)
    (l : ℚ × ℚ × ℚ) (h : ChunkInv CS s) :
    ChunkInv CS ((chunkH CS).setLight s x y l) := h

theorem chunkH_addParticle_inv (CS : Nat) (s : SHC)
    (m : MaterialInstance) (p v : ℚ × ℚ) (h : ChunkInv CS s) :
    ChunkInv CS ((chunkH CS).addParticle s m p v) := h

theorem simulate_chunk_eq_some (CS : Nat) (cx cy : Int)
    (cd : Nat → ChunkCtx) (ps : List Particle) (r : Rng) (rect : Rect)
    (h : (cd 4).dirty_rect = some rect) :
    simulate_chunk CS cx cy cd ps r =
      (((scanCoords rect (r.bools r.bi)).foldl
        (fun (sr : SHC × Rng) xy =>
          processStep (chunkH CS) xy.1 xy.2 sr.1 sr.2)
        ({ chunkData := cd
           minX := fun _ => CS + 1, minY := fun _ => CS + 1
           maxX := fun _ => 0, maxY := fun _ => 0
           particles := ps, chunkX := cx, chunkY := cy
           written := fun _ => [], accessed := [] },
         { r with bi := r.bi + 1 })).1).finishDirtyRects CS := by
  simp [simulate_chunk, h, Rng.bool]

theorem simulate_pixel_chunkH_inv (CS : Nat) (hCS : 0 < CS) :
    ∀ (x y : Int) (cur : MaterialInstance) (s : SHC) (r : Rng),
      ChunkInv CS s →
      ChunkInv CS (simulate_pixel (chunkH CS) x y cur s r).2.1 :=
  simulate_pixel_preserves (chunkH CS) (ChunkInv CS)
    (fun s x y h => chunkH_borrow_inv CS s x y h)
    (fun s x y m h => chunkH_setPixel_inv CS hCS s x y m h)
    (fun s x y c h => chunkH_setColor_inv CS s x y c h)
    (fun s x y l h => chunkH_setLight_inv CS s x y l h)
    (fun s m p v h => chunkH_addParticle_inv CS s m p v h)

theorem processStep_chunkH_inv (CS : Nat) (hCS : 0 < CS) (x y : Int)
    (s : SHC) (r : Rng) (h : ChunkInv CS s) :
    ChunkInv CS (processStep (chunkH CS) x y s r).1 := by
  unfold processStep
  rcases hb : (chunkH CS).borrowPixel s x y with ⟨cur, s1⟩
  have h1 : ChunkInv CS s1 := by
    have hh := chunkH_borrow_inv CS s x y h
    rwa [hb] at hh
  rcases hres : simulate_pixel (chunkH CS) x y cur s1 r with ⟨o, s2, r2⟩
  have h2 : ChunkInv CS s2 := by
    have hh := simulate_pixel_chunkH_inv CS hCS x y cur s1 r h1
    rwa [hres] at hh
  simp only [hb, hres]
  match o with
  | some mat =>
    exact chunkH_setPixel_inv CS hCS _ x y mat
      (chunkH_setLight_inv CS _ x y mat.light
        (chunkH_setColor_inv CS _ x y mat.color h2))
  | none => exact h2

theorem fold_process_chunkH_inv (CS : Nat) (hCS : 0 < CS) :
    ∀ (l : List (Int × Int)) (s : SHC) (r : Rng), ChunkInv CS s →
      ChunkInv CS ((l.foldl
        (fun (sr : SHC × Rng) xy =>
          processStep (chunkH CS) xy.1 xy.2 sr.1 sr.2) (s, r)).1) := by
  intro l
  induction l with
  | nil => intro s r h; exact h
  | cons hd tl ih =>
    intro s r h
    rcases hp : processStep (chunkH CS) hd.1 hd.2 s r with ⟨s1, r1⟩
    have h1 : ChunkInv CS s1 := by
      have hh := processStep_chunkH_inv CS hCS hd.1 hd.2 s r h
      rwa [hp] at hh
    simp only [List.foldl_cons, hp]
    exact ih s1 r1 h1

theorem nonempty_min_mem (xs : List Nat) (CS : Nat) (hne : xs ≠ [])
    (hlt : ∀ a ∈ xs, a < CS) :
    xs.foldl Nat.min (CS + 1) ∈ xs := by
  rcases foldl_min_choice xs (CS + 1) with h | h
  · obtain ⟨a, ha⟩ := List.exists_mem_of_ne_nil xs hne
    have h1 := foldl_min_le_mem xs (CS + 1) a ha
    have h2 := hlt a ha
    omega
  · exact h

theorem nonempty_max_mem (xs : List Nat) (hne : xs ≠ []) :
    xs.foldl Nat.max 0 ∈ xs := by
  rcases foldl_max_choice xs 0 with h | h
  · obtain ⟨a, ha⟩ := List.exists_mem_of_ne_nil xs hne
    have h1 := foldl_max_mem_le xs 0 a ha
    rw [h] at h1
    have h0 : a = 0 := Nat.le_zero.mp h1
    rw [h, ← h0]
    exact ha
  · exact h

/-- C4: after simulate_chunk runs on a center chunk with a dirty
rectangle, each of the nine contexts carries a dirty rectangle that is
exactly the tight bounding box of the chunk-local coordinates at which
a pixel was written in that chunk during the step (every write is
inside it and each of its four edges is attained by some write), and
carries none when no pixel was written there. -/
theorem dirty_rects_tight (CS : Nat) (hCS : 0 < CS) (cx cy : Int)
    (cd : Nat → ChunkCtx) (ps : List Particle) (r : Rng) (rect : Rect)
    (h : (cd 4).dirty_rect = some rect) :
    ∀ i : Nat, i < 9 →
      ((simulate_chunk CS cx cy cd ps r).written i = [] →
        ((simulate_chunk CS cx cy cd ps r).chunkData i).dirty_rect =
          none) ∧
      ((simulate_chunk CS cx cy cd ps r).written i ≠ [] →
        ∃ rc : Rect,
          ((simulate_chunk CS cx cy cd ps r).chunkData i).dirty_rect =
            some rc ∧
          (∀ p ∈ (simulate_chunk CS cx cy cd ps r).written i,
            rc.x ≤ (p.1 : Int) ∧ (p.1 : Int) < rc.x + rc.w ∧
            rc.y ≤ (p.2 : Int) ∧ (p.2 : Int) < rc.y + rc.h) ∧
          (∃ p ∈ (simulate_chunk CS cx cy cd ps r).written i,
            (p.1 : Int) = rc.x) ∧
          (∃ p ∈ (simulate_chunk CS cx cy cd ps r).written i,
            (p.1 : Int) = rc.x + rc.w - 1) ∧
          (∃ p ∈ (simulate_chunk CS cx cy cd ps r).written i,
            (p.2 : Int) = rc.y) ∧
          (∃ p ∈ (simulate_chunk CS cx cy cd ps r).written i,
            (p.2 : Int) = rc.y + rc.h - 1)) := by
  rw [simulate_chunk_eq_some CS cx cy cd ps r rect h]
  have hinv0 : ChunkInv CS
      { chunkData := cd
        minX := fun _ => CS + 1, minY := fun _ => CS + 1
        maxX := fun _ => 0, maxY := fun _ => 0
        particles := ps, chunkX := cx, chunkY := cy
        written := fun _ => [], accessed := [] } := by
    intro i
    exact ⟨rfl, rfl, rfl, rfl, fun p hp => absurd hp (List.not_mem_nil p)⟩
  have hinv := fold_process_chunkH_inv CS hCS
    (scanCoords rect (r.bools r.bi)) _ { r with bi := r.bi + 1 } hinv0
  set sF := ((scanCoords rect (r.bools r.bi)).foldl
    (fun (sr : SHC × Rng) xy =>
      processStep (chunkH CS) xy.1 xy.2 sr.1 sr.2)
    ({ chunkData := cd
       minX := fun _ => CS + 1, minY := fun _ => CS + 1
       maxX := fun _ => 0, maxY := fun _ => 0
       particles := ps, chunkX := cx, chunkY := cy
       written := fun _ => [], accessed := [] },
     { r with bi := r.bi + 1 })).1 with hsF
  intro i hi
  obtain ⟨h1, h2, h3, h4, h5⟩ := hinv i
  have hwfin : (sF.finishDirtyRects CS).written i = sF.written i := rfl
  constructor
  · intro hempty
    rw [hwfin] at hempty
    have hminx : sF.minX i = CS + 1 := by rw [h1, hempty]; rfl
    simp only [SHC.finishDirtyRects, if_pos hi, if_pos hminx]
  · intro hne
    rw [hwfin] at hne
    have hxsne : ((sF.written i).map Prod.fst) ≠ [] := by
      simp [hne]
    have hysne : ((sF.written i).map Prod.snd) ≠ [] := by
      simp [hne]
    have hxlt : ∀ a ∈ (sF.written i).map Prod.fst, a < CS := by
      intro a ha
      obtain ⟨p, hp, rfl⟩ := List.mem_map.mp ha
      exact (h5 p hp).1
    have hylt : ∀ a ∈ (sF.written i).map Prod.snd, a < CS := by
      intro a ha
      obtain ⟨p, hp, rfl⟩ := List.mem_map.mp ha
      exact (h5 p hp).2
    have hminmem := nonempty_min_mem _ CS hxsne hxlt
    have hminmemy := nonempty_min_mem _ CS hysne hylt
    have hmaxmem := nonempty_max_mem _ hxsne
    have hmaxmemy := nonempty_max_mem _ hysne
    have hminx_ne : sF.minX i ≠ CS + 1 := by
      rw [h1]
      have := hxlt _ hminmem
      omega
    have hminmax : sF.minX i ≤ sF.maxX i := by
      rw [h1, h3]
      exact foldl_max_mem_le _ 0 _ hminmem
    have hminmaxy : sF.minY i ≤ sF.maxY i := by
      rw [h2, h4]
      exact foldl_max_mem_le _ 0 _ hminmemy
    refine ⟨Rect.mk (sF.minX i : Int) (sF.minY i : Int)
      (sF.maxX i - sF.minX i + 1) (sF.maxY i - sF.minY i + 1),
      ?_, ?_, ?_, ?_, ?_, ?_⟩
    · simp only [SHC.finishDirtyRects, if_pos hi, if_neg hminx_ne]
    · intro p hp
      have hpx1 : sF.minX i ≤ p.1 := by
        rw [h1]
        exact foldl_min_le_mem _ _ _ (List.mem_map_of_mem Prod.fst hp)
      have hpx2 : p.1 ≤ sF.maxX i := by
        rw [h3]
        exact foldl_max_mem_le _ _ _ (List.mem_map_of_mem Prod.fst hp)
      have hpy1 : sF.minY i ≤ p.2 := by
        rw [h2]
        exact foldl_min_le_mem _ _ _ (List.mem_map_of_mem Prod.snd hp)
      have hpy2 : p.2 ≤ sF.maxY i := by
        rw [h4]
        exact foldl_max_mem_le _ _ _ (List.mem_map_of_mem Prod.snd hp)
      refine ⟨?_, ?_, ?_, ?_⟩ <;> push_cast <;> omega
    · obtain ⟨p, hp, hpe⟩ := List.mem_map.mp hminmem
      refine ⟨p, hp, ?_⟩
      show (p.1 : Int) = ((sF.minX i : Nat) : Int)
      rw [hpe, h1]
    · obtain ⟨p, hp, hpe⟩ := List.mem_map.mp hmaxmem
      refine ⟨p, hp, ?_⟩
      show (p.1 : Int) = ((sF.minX i : Nat) : Int) +
        ((sF.maxX i - sF.minX i + 1 : Nat) : Int) - 1
      rw [hpe, ← h3]
      push_cast [Nat.cast_sub hminmax]
      omega
    · obtain ⟨p, hp, hpe⟩ := List.mem_map.mp hminmemy
      refine ⟨p, hp, ?_⟩
      show (p.2 : Int) = ((sF.minY i : Nat) : Int)
      rw [hpe, h2]
    · obtain ⟨p, hp, hpe⟩ := List.mem_map.mp hmaxmemy
      refine ⟨p, hp, ?_⟩
      show (p.2 : Int) = ((sF.minY i : Nat) : Int) +
        ((sF.maxY i - sF.minY i + 1 : Nat) : Int) - 1
      rw [hpe, ← h4]
      push_cast [Nat.cast_sub hminmaxy]
      omega

/-- A chunk context holding only air. -/
def ctxAir : ChunkCtx :=
  { pixels := fun _ => MaterialInstance.air
    colors := fun _ => 0
    lights := fun _ => (0, 0, 0, 1)
    dirty := false
    dirty_rect := none }

/-- Nine air chunks, none dirty. -/
def cdN : Nat → ChunkCtx := fun _ => ctxAir

/-- Nine air chunks with a one-pixel dirty rectangle on the center. -/
def cdR : Nat → ChunkCtx := fun i =>
  if i = 4 then { ctxAir with dirty_rect := some (Rect.mk 1 1 1 1) }
  else ctxAir

theorem idle_skip_noop_witness :
    (cdN 4).dirty_rect = none ∧
    ((simulate_chunk 10 0 0 cdN [] rngW).particles = [] ∧
    (∀ i : Nat,
      ((simulate_chunk 10 0 0 cdN [] rngW).chunkData i).pixels =
        (cdN i).pixels ∧
      ((simulate_chunk 10 0 0 cdN [] rngW).chunkData i).colors =
        (cdN i).colors ∧
      ((simulate_chunk 10 0 0 cdN [] rngW).chunkData i).lights =
        (cdN i).lights) ∧
    (∀ i : Nat, i < 9 →
      ((simulate_chunk 10 0 0 cdN [] rngW).chunkData i).dirty_rect =
        none) ∧
    (∀ i : Nat, (simulate_chunk 10 0 0 cdN [] rngW).written i = []) ∧
    (∀ n : Nat, 1 ≤ n →
      simulateChunkIter 10 0 0 (fun _ => rngW) n (cdN, []) =
        ((fun i => if i < 9 then { cdN i with dirty_rect := none }
          else cdN i), []))) :=
  ⟨rfl, idle_skip_noop 10 0 0 cdN [] rngW (fun _ => rngW) rfl⟩

theorem scan_order_spec_witness :
    (cdR 4).dirty_rect = some (Rect.mk 1 1 1 1) ∧
    simulate_chunk 10 0 0 cdR [] rngW =
      (((scanCoords (Rect.mk 1 1 1 1) (rngW.bools rngW.bi)).foldl
        (fun (sr : SHC × Rng) xy =>
          processStep (chunkH 10) xy.1 xy.2 sr.1 sr.2)
        ({ chunkData := cdR
           minX := fun _ => 10 + 1, minY := fun _ => 10 + 1
           maxX := fun _ => 0, maxY := fun _ => 0
           particles := [], chunkX := 0, chunkY := 0
           written := fun _ => [], accessed := [] },
         { rngW with bi := rngW.bi + 1 })).1).finishDirtyRects 10 :=
  ⟨by simp [cdR, ctxAir],
   (scan_order_spec (Rect.mk 1 1 1 1) (rngW.bools rngW.bi)).2
     10 0 0 cdR [] rngW (by simp [cdR, ctxAir])⟩

theorem dirty_rects_tight_witness :
    0 < 10 ∧ (cdR 4).dirty_rect = some (Rect.mk 1 1 1 1) ∧
    (∀ i : Nat, i < 9 →
      ((simulate_chunk 10 0 0 cdR [] rngW).written i = [] →
        ((simulate_chunk 10 0 0 cdR [] rngW).chunkData i).dirty_rect =
          none) ∧
      ((simulate_chunk 10 0 0 cdR [] rngW).written i ≠ [] →
        ∃ rc : Rect,
          ((simulate_chunk 10 0 0 cdR [] rngW).chunkData i).dirty_rect =
            some rc ∧
          (∀ p ∈ (simulate_chunk 10 0 0 cdR [] rngW).written i,
            rc.x ≤ (p.1 : Int) ∧ (p.1 : Int) < rc.x + rc.w ∧
            rc.y ≤ (p.2 : Int) ∧ (p.2 : Int) < rc.y + rc.h) ∧
          (∃ p ∈ (simulate_chunk 10 0 0 cdR [] rngW).written i,
            (p.1 : Int) = rc.x) ∧
          (∃ p ∈ (simulate_chunk 10 0 0 cdR [] rngW).written i,
            (p.1 : Int) = rc.x + rc.w - 1) ∧
          (∃ p ∈ (simulate_chunk 10 0 0 cdR [] rngW).written i,
            (p.2 : Int) = rc.y) ∧
          (∃ p ∈ (simulate_chunk 10 0 0 cdR [] rngW).written i,
            (p.2 : Int) = rc.y + rc.h - 1))) :=
  ⟨by norm_num, by simp [cdR, ctxAir],
   dirty_rects_tight 10 (by norm_num) 0 0 cdR [] rngW
     (Rect.mk 1 1 1 1) (by simp [cdR, ctxAir])⟩

/-- The access box of one evaluation of the transition rule at (x, y):
columns x-2 to x+2, rows y-1 to y+5. -/
def inBox (x y : Int) (p : Int × Int) : Prop :=
  x - 2 ≤ p.1 ∧ p.1 ≤ x + 2 ∧ y - 1 ≤ p.2 ∧ p.2 ≤ y + 5

/-- Every coordinate the chunk helper touches during one evaluation of
simulate_pixel at (x, y) lies in the access box. -/
theorem simulate_pixel_chunkH_accesses (CS : Nat) (x y : Int)
    (cur : MaterialInstance) (s : SHC) (r : Rng) :
    ∀ p ∈ (simulate_pixel (chunkH CS) x y cur s r).2.1.accessed,
      p ∈ s.accessed ∨ inBox x y p := by
  set P : SHC → Prop :=
    fun s2 => ∀ p ∈ s2.accessed, p ∈ s.accessed ∨ inBox x y p with hP
  have hbAt : ∀ (s2 : SHC) (a b : Int), inBox x y (a, b) → P s2 →
      P ((chunkH CS).borrowPixel s2 a b).2 := by
    intro s2 a b hab h p hp
    simp only [chunkH, List.mem_append, List.mem_singleton] at hp
    rcases hp with hp | rfl
    · exact h p hp
    · exact Or.inr hab
  have hwAt : ∀ (s2 : SHC) (a b : Int) (m : MaterialInstance),
      inBox x y (a, b) → P s2 →
      P ((chunkH CS).setPixel ((chunkH CS).setLight
        ((chunkH CS).setColor s2 a b m.color) a b m.light) a b m) := by
    intro s2 a b m hab h p hp
    simp only [chunkH, SHC.setPixelFromIndex, SHC.setLightFromIndex,
      SHC.setColorFromIndex, List.mem_append, List.mem_singleton] at hp
    rcases hp with ((hp | rfl) | rfl) | rfl
    · exact h p hp
    · exact Or.inr hab
    · exact Or.inr hab
    · exact Or.inr hab
  have hpAt : ∀ (s2 : SHC) (m : MaterialInstance) (q v : ℚ × ℚ),
      P s2 → P ((chunkH CS).addParticle s2 m q v) := by
    intro s2 m q v h p hp
    exact h p hp
  have hall : ∀ (l : List (Int × Int)) (s2 : SHC),
      (∀ q ∈ l, inBox x y q) → P s2 → P (allAir (chunkH CS) s2 l).2 := by
    intro l
    induction l with
    | nil => intro s2 _ h; exact h
    | cons hd tl ih =>
      intro s2 hq h
      obtain ⟨a, b⟩ := hd
      have h1 : P ((chunkH CS).borrowPixel s2 a b).2 :=
        hbAt s2 a b (hq (a, b) (List.mem_cons_self _ _)) h
      rcases hpair : (chunkH CS).borrowPixel s2 a b with ⟨pv, s3⟩
      rw [hpair] at h1
      simp only [allAir, hpair]
      split
      · exact ih s3 (fun q hq2 => hq q (List.mem_cons_of_mem _ hq2)) h1
      · exact h1
  have hstart : P s := fun p hp => Or.inl hp
  have hbox : ∀ (a b : Int), x - 2 ≤ a → a ≤ x + 2 → y - 1 ≤ b →
      b ≤ y + 5 → inBox x y (a, b) :=
    fun a b h1 h2 h3 h4 => ⟨h1, h2, h3, h4⟩
  show P (simulate_pixel (chunkH CS) x y cur s r).2.1
  unfold simulate_pixel
  split
  case isFalse => exact hstart
  case isTrue =>
    have hP1 := hbAt s x (y + 1)
      (hbox x (y + 1) (by omega) (by omega) (by omega) (by omega)) hstart
    rcases h1 : (chunkH CS).borrowPixel s x (y + 1) with ⟨below, s1⟩
    rw [h1] at hP1
    have hP2 := hbAt s1 (x - 1) (y + 1)
      (hbox (x - 1) (y + 1) (by omega) (by omega) (by omega) (by omega))
      hP1
    rcases h2 : (chunkH CS).borrowPixel s1 (x - 1) (y + 1) with ⟨bl, s2⟩
    rw [h2] at hP2
    have hP3 := hbAt s2 (x + 1) (y + 1)
      (hbox (x + 1) (y + 1) (by omega) (by omega) (by omega) (by omega))
      hP2
    rcases h3 : (chunkH CS).borrowPixel s2 (x + 1) (y + 1) with ⟨br, s3⟩
    rw [h3] at hP3
    simp only [h1, h2, h3]
    have hfall : ∀ r2 : Rng, P (fallBranch (chunkH CS) x y cur s3 r2).2.1 := by
      intro r2
      unfold fallBranch
      have hP4 := hall [(x, y + 2), (x, y + 3), (x, y + 4), (x, y + 5)] s3
        (by
          intro q hq
          rcases List.mem_cons.mp hq with rfl | hq
          · exact hbox x (y + 2) (by omega) (by omega) (by omega) (by omega)
          rcases List.mem_cons.mp hq with rfl | hq
          · exact hbox x (y + 3) (by omega) (by omega) (by omega) (by omega)
          rcases List.mem_cons.mp hq with rfl | hq
          · exact hbox x (y + 4) (by omega) (by omega) (by omega) (by omega)
          rcases List.mem_cons.mp hq with rfl | hq
          · exact hbox x (y + 5) (by omega) (by omega) (by omega) (by omega)
          · exact absurd hq (List.not_mem_nil q))
        hP3
      rcases h4 : allAir (chunkH CS) s3
          [(x, y + 2), (x, y + 3), (x, y + 4), (x, y + 5)] with ⟨eb, s4⟩
      rw [h4] at hP4
      simp only [h4]
      split
      · exact hpAt _ _ _ _ hP4
      · have hP5 := hbAt s4 x (y + 2)
          (hbox x (y + 2) (by omega) (by omega) (by omega) (by omega)) hP4
        rcases h5 : (chunkH CS).borrowPixel s4 x (y + 2) with ⟨p2, s5⟩
        rw [h5] at hP5
        simp only [Rng.bool, h5]
        split
        · split
          · exact hwAt _ x (y + 2) _
              (hbox x (y + 2) (by omega) (by omega) (by omega) (by omega))
              hP5
          · exact hwAt _ x (y + 1) _
              (hbox x (y + 1) (by omega) (by omega) (by omega) (by omega))
              hP5
        · exact hwAt _ x (y + 1) _
            (hbox x (y + 1) (by omega) (by omega) (by omega) (by omega))
            hP4
    have hspread : ∀ (c1 c2 : Bool) (r2 : Rng),
        P (spreadBranch (chunkH CS) x y cur c1 c2 s3 r2).2.1 := by
      intro c1 c2 r2
      unfold spreadBranch
      have hP6 := hbAt s3 x (y - 1)
        (hbox x (y - 1) (by omega) (by omega) (by omega) (by omega)) hP3
      rcases h6 : (chunkH CS).borrowPixel s3 x (y - 1) with ⟨above, s6⟩
      rw [h6] at hP6
      simp only [h6]
      have hmv : ∀ r3 : Rng,
          P (spreadMove (chunkH CS) x y cur c1 c2 s6 r3).2.1 := by
        intro r3
        unfold spreadMove
        split
        · simp only [Rng.bool]
          split
          · exact hwAt _ (x + 1) (y + 1) _
              (hbox (x + 1) (y + 1) (by omega) (by omega) (by omega)
                (by omega)) hP6
          · exact hwAt _ (x - 1) (y + 1) _
              (hbox (x - 1) (y + 1) (by omega) (by omega) (by omega)
                (by omega)) hP6
        · split
          · simp only [Rng.bool]
            have hP7 := hbAt s6 (x - 2) (y + 1)
              (hbox (x - 2) (y + 1) (by omega) (by omega) (by omega)
                (by omega)) hP6
            rcases h7 : (chunkH CS).borrowPixel s6 (x - 2) (y + 1) with
              ⟨pa, s7⟩
            rw [h7] at hP7
            have hP8 := hbAt s7 (x - 2) (y + 2)
              (hbox (x - 2) (y + 2) (by omega) (by omega) (by omega)
                (by omega)) hP7
            rcases h8 : (chunkH CS).borrowPixel s7 (x - 2) (y + 2) with
              ⟨pb, s8⟩
            rw [h8] at hP8
            split
            · simp only [h7]
              split
              · simp only [h8]
                split
                · exact hwAt _ (x - 2) (y + 1) _
                    (hbox (x - 2) (y + 1) (by omega) (by omega)
                      (by omega) (by omega)) hP8
                · exact hwAt _ (x - 1) (y + 1) _
                    (hbox (x - 1) (y + 1) (by omega) (by omega)
                      (by omega) (by omega)) hP8
              · split
                · exact hwAt _ (x - 2) (y + 1) _
                    (hbox (x - 2) (y + 1) (by omega) (by omega)
                      (by omega) (by omega)) hP7
                · exact hwAt _ (x - 1) (y + 1) _
                    (hbox (x - 1) (y + 1) (by omega) (by omega)
                      (by omega) (by omega)) hP7
            · split
              · exact hwAt _ (x - 2) (y + 1) _
                  (hbox (x - 2) (y + 1) (by omega) (by omega) (by omega)
                    (by omega)) hP6
              · exact hwAt _ (x - 1) (y + 1) _
                  (hbox (x - 1) (y + 1) (by omega) (by omega) (by omega)
                    (by omega)) hP6
          · split
            · simp only [Rng.bool]
              have hP7 := hbAt s6 (x + 2) (y + 1)
                (hbox (x + 2) (y + 1) (by omega) (by omega) (by omega)
                  (by omega)) hP6
              rcases h7 : (chunkH CS).borrowPixel s6 (x + 2) (y + 1) with
                ⟨pa, s7⟩
              rw [h7] at hP7
              have hP8 := hbAt s7 (x + 2) (y + 2)
                (hbox (x + 2) (y + 2) (by omega) (by omega) (by omega)
                  (by omega)) hP7
              rcases h8 : (chunkH CS).borrowPixel s7 (x + 2) (y + 2) with
                ⟨pb, s8⟩
              rw [h8] at hP8
              split
              · simp only [h7]
                split
                · simp only [h8]
                  split
                  · exact hwAt _ (x + 2) (y + 1) _
                      (hbox (x + 2) (y + 1) (by omega) (by omega)
                        (by omega) (by omega)) hP8
                  · exact hwAt _ (x + 1) (y + 1) _
                      (hbox (x + 1) (y + 1) (by omega) (by omega)
                        (by omega) (by omega)) hP8
                · split
                  · exact hwAt _ (x + 2) (y + 1) _
                      (hbox (x + 2) (y + 1) (by omega) (by omega)
                        (by omega) (by omega)) hP7
                  · exact hwAt _ (x + 1) (y + 1) _
                      (hbox (x + 1) (y + 1) (by omega) (by omega)
                        (by omega) (by omega)) hP7
              · split
                · exact hwAt _ (x + 2) (y + 1) _
                    (hbox (x + 2) (y + 1) (by omega) (by omega)
                      (by omega) (by omega)) hP6
                · exact hwAt _ (x + 1) (y + 1) _
                    (hbox (x + 1) (y + 1) (by omega) (by omega)
                      (by omega) (by omega)) hP6
            · exact hP6
      split
      · exact hmv _
      · simp only [Rng.f32]
        split
        · exact hmv _
        · exact hP6
    split
    · split
      · exact hfall _
      · simp only [Rng.f32]
        split
        · exact hfall _
        · exact hspread _ _ _
    · exact hspread _ _ _

theorem mem_scanCoords (rect : Rect) (coin : Bool) (x y : Int)
    (h : (x, y) ∈ scanCoords rect coin) :
    rect.x ≤ x ∧ x < rect.x + rect.w ∧
    rect.y ≤ y ∧ y < rect.y + rect.h := by
  unfold scanCoords Rect.range_tb Rect.range_lr at h
  cases coin <;>
    simp only [if_true, if_false, Bool.false_eq_true, List.mem_flatMap,
      List.mem_map, List.mem_reverse, List.mem_range, Prod.mk.injEq] at h <;>
    obtain ⟨yy, ⟨j, hj, rfl⟩, xx, ⟨i, hi, rfl⟩, hx, hy⟩ := h <;>
    constructor <;> try constructor
  all_goals omega

theorem local_to_indices_safe (CS : Nat) (hCS : 0 < CS) (a b : Int)
    (ha1 : -(CS : Int) ≤ a) (ha2 : a < 2 * CS)
    (hb1 : -(CS : Int) ≤ b) (hb2 : b < 2 * CS) :
    (local_to_indices CS a b).1 < 9 ∧
    (local_to_indices CS a b).2.1 < CS * CS := by
  obtain ⟨hqa1, hqa2⟩ := ediv_mem_of_halo CS a hCS ha1 ha2
  obtain ⟨hqb1, hqb2⟩ := ediv_mem_of_halo CS b hCS hb1 hb2
  obtain ⟨hpx, hpy⟩ := local_to_indices_px_lt CS hCS a b
  constructor
  · have h1 : (Int.ediv a CS + 1).toNat ≤ 2 := by omega
    have h2 : (Int.ediv b CS + 1).toNat ≤ 2 := by omega
    simp only [local_to_indices]
    omega
  · have h3 : (local_to_indices CS a b).2.1 =
        (local_to_indices CS a b).2.2.1 +
        (local_to_indices CS a b).2.2.2 * CS := rfl
    rw [h3]
    calc (local_to_indices CS a b).2.2.1 +
        (local_to_indices CS a b).2.2.2 * CS
        < CS + (local_to_indices CS a b).2.2.2 * CS := by omega
    _ = (1 + (local_to_indices CS a b).2.2.2) * CS := by ring
    _ ≤ CS * CS := Nat.mul_le_mul_right CS (by omega)

/-- Every coordinate the chunk helper touches during one execution of
the process closure at (x, y) — the unchecked read of the current
pixel, the whole transition evaluation, and the three unchecked
write-backs — lies in the access box or was already in the log. -/
theorem processStep_chunkH_accesses (CS : Nat) (x y : Int) (s : SHC)
    (r : Rng) :
    ∀ p ∈ (processStep (chunkH CS) x y s r).1.accessed,
      p ∈ s.accessed ∨ inBox x y p := by
  unfold processStep
  rcases hb : (chunkH CS).borrowPixel s x y with ⟨cur, s1⟩
  have hs1eq : s1.accessed = s.accessed ++ [(x, y)] := by
    have h2 : ((chunkH CS).borrowPixel s x y).2.accessed =
        s.accessed ++ [(x, y)] := rfl
    rw [hb] at h2
    exact h2
  have hxy : inBox x y (x, y) := ⟨by omega, by omega, by omega, by omega⟩
  rcases hsim : simulate_pixel (chunkH CS) x y cur s1 r with ⟨o, s2, r2⟩
  have hs2 : ∀ p ∈ s2.accessed, p ∈ s.accessed ∨ inBox x y p := by
    intro p hp
    have h3 := simulate_pixel_chunkH_accesses CS x y cur s1 r p
      (by rw [hsim]; exact hp)
    rcases h3 with h3 | h3
    · rw [hs1eq] at h3
      rcases List.mem_append.mp h3 with h4 | h4
      · exact Or.inl h4
      · rw [List.mem_singleton] at h4
        subst h4
        exact Or.inr hxy
    · exact Or.inr h3
  rcases o with _ | mat
  · simp only [hb, hsim]
    exact hs2
  · simp only [hb, hsim]
    intro p hp
    simp only [chunkH, SHC.setPixelFromIndex, SHC.setLightFromIndex,
      SHC.setColorFromIndex, List.mem_append, List.mem_singleton] at hp
    rcases hp with ((hp | rfl) | rfl) | rfl
    · exact hs2 p hp
    · exact Or.inr hxy
    · exact Or.inr hxy
    · exact Or.inr hxy

/-- The ghost log of one execution of the process closure at (x, y)
always contains (x, y) itself: the unchecked read of the current pixel
is logged before anything else, and every later operation only appends
to the log. -/
theorem processStep_chunkH_self_access (CS : Nat) (x y : Int) (s : SHC)
    (r : Rng) :
    (x, y) ∈ (processStep (chunkH CS) x y s r).1.accessed := by
  unfold processStep
  rcases hb : (chunkH CS).borrowPixel s x y with ⟨cur, s1⟩
  have hs1 : (x, y) ∈ s1.accessed := by
    have h2 : ((chunkH CS).borrowPixel s x y).2.accessed =
        s.accessed ++ [(x, y)] := rfl
    rw [hb] at h2
    rw [h2]
    exact List.mem_append.mpr (Or.inr (List.mem_singleton.mpr rfl))
  have hmono := simulate_pixel_preserves (chunkH CS)
    (fun t => (x, y) ∈ t.accessed)
    (fun t a b h => List.mem_append_left _ h)
    (fun t a b m h => List.mem_append_left _ h)
    (fun t a b c h => List.mem_append_left _ h)
    (fun t a b l h => List.mem_append_left _ h)
    (fun t m q v h => h)
    x y cur s1 r hs1
  rcases hsim : simulate_pixel (chunkH CS) x y cur s1 r with ⟨o, s2, r2⟩
  rw [hsim] at hmono
  rcases o with _ | mat
  · simp only [hb, hsim]
    exact hmono
  · simp only [hb, hsim]
    exact List.mem_append_left _ (List.mem_append_left _
      (List.mem_append_left _ hmono))

/-- C10: every coordinate touched by one execution of the hot-loop
body at (x, y) — the four unchecked accesses at (x, y) itself (the
read of the current pixel and the three write-backs) together with
every access made inside simulate_pixel — stays within columns x-2 to
x+2 and rows y-1 to y+5; hence when the center dirty rectangle lies
within the chunk and CHUNK_SIZE is at least 5, every such coordinate
maps through local_to_indices to a context index below 9 and a pixel
index below CHUNK_SIZE squared, so no unchecked access is out of
bounds; the log provably contains the unchecked-access coordinate
(x, y), so the guarantee is never vacuous. -/
theorem hot_loop_accesses_safe (CS : Nat) (hCS : 5 ≤ CS) (rect : Rect)
    (hrx1 : 0 ≤ rect.x) (hrx2 : rect.x + rect.w ≤ CS)
    (hry1 : 0 ≤ rect.y) (hry2 : rect.y + rect.h ≤ CS)
    (coin : Bool) (x y : Int) (hmem : (x, y) ∈ scanCoords rect coin)
    (s : SHC) (r : Rng) (hacc : s.accessed = []) :
    (x, y) ∈ (processStep (chunkH CS) x y s r).1.accessed ∧
    ∀ p ∈ (processStep (chunkH CS) x y s r).1.accessed,
      (x - 2 ≤ p.1 ∧ p.1 ≤ x + 2 ∧ y - 1 ≤ p.2 ∧ p.2 ≤ y + 5) ∧
      (local_to_indices CS p.1 p.2).1 < 9 ∧
      (local_to_indices CS p.1 p.2).2.1 < CS * CS := by
  obtain ⟨hx1, hx2, hy1, hy2⟩ := mem_scanCoords rect coin x y hmem
  refine ⟨processStep_chunkH_self_access CS x y s r, ?_⟩
  intro p hp
  rcases processStep_chunkH_accesses CS x y s r p hp with hin | hin
  · rw [hacc] at hin
    exact absurd hin (List.not_mem_nil p)
  · obtain ⟨hb1, hb2, hb3, hb4⟩ := hin
    refine ⟨⟨hb1, hb2, hb3, hb4⟩, ?_⟩
    exact local_to_indices_safe CS (by omega) p.1 p.2
      (by omega) (by omega) (by omega) (by omega)

/-- Nine chunks, all air except one sand pixel at local (1, 1) of the
center chunk, with a one-pixel dirty rectangle over it. -/
def cdS : Nat → ChunkCtx := fun i =>
  if i = 4 then
    { ctxAir with
      pixels := fun j => if j = 11 then sandM else MaterialInstance.air
      dirty_rect := some (Rect.mk 1 1 1 1) }
  else ctxAir

/-- A fresh chunk helper over that data, with empty ghost logs and the
dirty trackers at their sentinels. -/
def sSW : SHC :=
  { chunkData := cdS
    minX := fun _ => 11, minY := fun _ => 11
    maxX := fun _ => 0, maxY := fun _ => 0
    particles := [], chunkX := 0, chunkY := 0
    written := fun _ => [], accessed := [] }

theorem hot_loop_accesses_safe_witness :
    (5 ≤ 10 ∧ 0 ≤ (Rect.mk 1 1 1 1).x ∧
     (Rect.mk 1 1 1 1).x + (Rect.mk 1 1 1 1).w ≤ 10 ∧
     0 ≤ (Rect.mk 1 1 1 1).y ∧
     (Rect.mk 1 1 1 1).y + (Rect.mk 1 1 1 1).h ≤ 10 ∧
     ((1, 1) : Int × Int) ∈ scanCoords (Rect.mk 1 1 1 1) true ∧
     sSW.accessed = [] ∧
     (sSW.getPixelFromIndex (local_to_indices 10 1 1)).physics =
       PhysicsType.Sand) ∧
    ((1, 1) ∈ (processStep (chunkH 10) 1 1 sSW rngW).1.accessed ∧
     ∀ p ∈ (processStep (chunkH 10) 1 1 sSW rngW).1.accessed,
       (1 - 2 ≤ p.1 ∧ p.1 ≤ 1 + 2 ∧ 1 - 1 ≤ p.2 ∧ p.2 ≤ 1 + 5) ∧
       (local_to_indices 10 p.1 p.2).1 < 9 ∧
       (local_to_indices 10 p.1 p.2).2.1 < 10 * 10) :=
  ⟨⟨by norm_num, by norm_num, by norm_num, by norm_num, by norm_num,
    by simp [scanCoords, Rect.range_tb, Rect.range_lr, List.mem_flatMap],
    rfl, rfl⟩,
   hot_loop_accesses_safe 10 (by norm_num) (Rect.mk 1 1 1 1)
     (by norm_num) (by norm_num) (by norm_num) (by norm_num) true 1 1
     (by simp [scanCoords, Rect.range_tb, Rect.range_lr, List.mem_flatMap])
     sSW rngW rfl⟩

/-- A rigid body as used by simulator.rs: width and height of the
embedded pixel grid (stored row-major, index rb_x + rb_y * width), the
optional physics handle, and the image-dirty flag.  Fields are taken
from the uses in simulator.rs; rigidbody.rs itself is not under src. -/
structure FSRigidBody where
  width : Nat
  height : Nat
  pixels : List MaterialInstance
  body : Option Nat
  image_dirty : Bool

/-- The physics state of one body: translation, rotation angle, linear
velocity and angular velocity (floats modelled as rationals). -/
structure BodyState where
  translation : ℚ × ℚ
  angle : ℚ
  linvel : ℚ × ℚ
  angvel : ℚ

/-- Modelled from the spec: the physics world as a finite map from
handles to body states (the rapier2d body set is external to the
repository; only lookup, removal and pose/velocity setting are used
by the simulator). -/
structure Physics where
  bodies : List (Nat × BodyState)

def Physics.lookup (ph : Physics) (h : Nat) : Option BodyState :=
  (ph.bodies.find? (fun hb => hb.1 == h)).map Prod.snd

def Physics.remove (ph : Physics) (h : Nat) : Physics :=
  { bodies := ph.bodies.filter (fun hb => !(hb.1 == h)) }

def Physics.setState (ph : Physics) (h : Nat) (bs : BodyState) : Physics :=
  { bodies := ph.bodies.map (fun hb => if hb.1 = h then (h, bs) else hb) }

/-- FSRigidBody::get_body: resolve the optional handle in the physics
world. -/
def FSRigidBody.get_body (rb : FSRigidBody) (ph : Physics) :
    Option BodyState :=
  rb.body.bind ph.lookup

/-- The Rust float-to-i32 cast: truncation toward zero. -/
def ratTrunc (q : ℚ) : Int :=
  if 0 ≤ q then q.floor else q.ceil

/-- The body-scan loop of SimulationHelperRigidBody::get_pixel_local
(simulator.rs lines 371-391): walk the rigid bodies in order, rotate
and translate the query point into each candidate body's local frame
(sin and cos of the rotation are the parameters sinF and cosF, the
physics-to-pixel factor is pscale), and return the first in-bounds
non-air pixel; the source compares both local coordinates against the
body width (lines 383). -/
def rbScan (sinF cosF : ℚ → ℚ) (pscale : ℚ) (ph : Physics)
    (x y : Int) : List FSRigidBody → Option MaterialInstance
  | [] => none
  | rb :: rest =>
    match rb.get_body ph with
    | none => rbScan sinF cosF pscale ph x y rest
    | some bs =>
      let s := sinF (-bs.angle)
      let c := cosF (-bs.angle)
      let tx : ℚ := (x : ℚ) - bs.translation.1 * pscale
      let ty : ℚ := (y : ℚ) - bs.translation.2 * pscale
      let nt_x := ratTrunc (tx * c - ty * s)
      let nt_y := ratTrunc (tx * s + ty * c)
      if 0 ≤ nt_x ∧ 0 ≤ nt_y ∧ nt_x < (rb.width : Int) ∧
          nt_y < (rb.width : Int) then
        let px := rb.pixels.getD (nt_x + nt_y * (rb.width : Int)).toNat
          MaterialInstance.air
        if px.material_id ≠ AIR_ID then some px
        else rbScan sinF cosF pscale ph x y rest
      else rbScan sinF cosF pscale ph x y rest

/-- The state the rigid-body helper operates on: the world pixel and
color maps (the ChunkHandler get/set surface, modelled from the spec
as total maps over world coordinates), the rigid-body list, the
particle list and the physics state. -/
structure RBState where
  world : Int × Int → MaterialInstance
  worldColors : Int × Int → Color
  rigidbodies : List FSRigidBody
  particles : List Particle
  physics : Physics

/-- The SimulationHelper implementation for SimulationHelperRigidBody
(simulator.rs lines 362-500): reads resolve through the world first
and then the body scan; set_pixel_local writes THROUGH chunk_handler
set INTO THE WORLD GRID (lines 429-431), set_color_local writes the
world color map, lights are a no-op, add_particle pushes without any
offset. -/
def rigidH (sinF cosF : ℚ → ℚ) (pscale : ℚ) : SHelper RBState where
  borrowPixel := fun s x y =>
    (let m := s.world (x, y)
     if m.material_id ≠ AIR_ID then m
     else
       match rbScan sinF cosF pscale s.physics x y s.rigidbodies with
       | some px => px
       | none => MaterialInstance.air, s)
  setPixel := fun s x y m => { s with world := upd2 s.world (x, y) m }
  setColor := fun s x y c =>
    { s with worldColors := upd2 s.worldColors (x, y) c }
  setLight := fun s _ _ _ => s
  addParticle := fun s m p v =>
    { s with particles := s.particles ++ [⟨m, p, v⟩] }

/-- The inner loop body of the first pass of simulate_rigidbodies
(simulator.rs lines 616-649) for body i at local grid coordinate
(rb_x, rb_y): transform to world space, run the transition rule
through the rigid-body helper, and when it yields a replacement store
it into the local grid of body i.  Returns the new state and, as the
observable outcome, the (old, new) pair of the source cell when a
replacement was produced. -/
def rbPixelStep (sinF cosF : ℚ → ℚ) (pscale : ℚ) (i : Nat)
    (rb_x rb_y : Nat) (s : RBState) (r : Rng) :
    RBState × Rng × Option (MaterialInstance × MaterialInstance) :=
  match s.rigidbodies[i]? with
  | none => (s, r, none)
  | some rb =>
    match rb.get_body s.physics with
    | none => (s, r, none)
    | some bs =>
      let sn := sinF bs.angle
      let c := cosF bs.angle
      let pos_x := bs.translation.1 * pscale
      let pos_y := bs.translation.2 * pscale
      let tx := (rb_x : ℚ) * c - (rb_y : ℚ) * sn + pos_x
      let ty := (rb_x : ℚ) * sn + (rb_y : ℚ) * c + pos_y
      let cur := rb.pixels.getD (rb_x + rb_y * rb.width)
        MaterialInstance.air
      match simulate_pixel (rigidH sinF cosF pscale) (ratTrunc tx)
          (ratTrunc ty) cur s r with
      | (some m, s2, r2) =>
        let rb2 := s2.rigidbodies.getD i rb
        let rb3 :=
          { rb2 with pixels := rb2.pixels.set (rb_x + rb_y * rb.width) m }
        let s3 := { s2 with rigidbodies := s2.rigidbodies.set i rb3 }
        (s3, r2, some (cur, m))
      | (none, s2, r2) => (s2, r2, none)

theorem rigidH_borrowPixel (f g : ℚ → ℚ) (ps : ℚ) (s : RBState)
    (x y : Int) :
    (rigidH f g ps).borrowPixel s x y =
      (let m := s.world (x, y)
       if m.material_id ≠ AIR_ID then m
       else
         match rbScan f g ps s.physics x y s.rigidbodies with
         | some px => px
         | none => MaterialInstance.air, s) := rfl

theorem rigidH_setPixel (f g : ℚ → ℚ) (ps : ℚ) (s : RBState)
    (x y : Int) (m : MaterialInstance) :
    (rigidH f g ps).setPixel s x y m =
      { s with world := upd2 s.world (x, y) m } := rfl

theorem rigidH_setColor (f g : ℚ → ℚ) (ps : ℚ) (s : RBState)
    (x y : Int) (c : Color) :
    (rigidH f g ps).setColor s x y c =
      { s with worldColors := upd2 s.worldColors (x, y) c } := rfl

theorem rigidH_setLight (f g : ℚ → ℚ) (ps : ℚ) (s : RBState)
    (x y : Int) (l : ℚ × ℚ × ℚ) :
    (rigidH f g ps).setLight s x y l = s := rfl

theorem rigidH_addParticle (f g : ℚ → ℚ) (ps : ℚ) (s : RBState)
    (m : MaterialInstance) (p v : ℚ × ℚ) :
    (rigidH f g ps).addParticle s m p v =
      { s with particles := s.particles ++ [⟨m, p, v⟩] } := rfl

/-- The claim that during the rigid-body pass every pixel write lands
only in the body's own local grid and the world chunk grid is never
written.  (Stated from the claim words, for comparison with the
source.) -/
def rbNoWorldWriteClaim : Prop :=
  ∀ (sinF cosF : ℚ → ℚ) (pscale : ℚ) (i rb_x rb_y : Nat)
    (s : RBState) (r : Rng),
    (rbPixelStep sinF cosF pscale i rb_x rb_y s r).1.world = s.world

/-- A 2x2 rigid body with one sand pixel at its local origin. -/
def rbW : FSRigidBody :=
  { width := 2, height := 2
    pixels := [sandM, MaterialInstance.air, MaterialInstance.air,
      MaterialInstance.air]
    body := some 0
    image_dirty := false }

/-- A physics world holding that body at the origin with no rotation
and no velocity. -/
def phW : Physics :=
  { bodies := [(0, { translation := (0, 0), angle := 0
                     linvel := (0, 0), angvel := 0 })] }

/-- A rigid-body pass state: world all air except a solid floor cell
three rows below the body origin. -/
def rbsW : RBState :=
  { world := fun p => if p = (0, 3) then solidM else MaterialInstance.air
    worldColors := fun _ => { r := 0, g := 0, b := 0, a := 0 }
    rigidbodies := [rbW]
    particles := []
    physics := phW }

theorem rbScanW_01 :
    rbScan (fun _ => 0) (fun _ => 1) 1 phW 0 1 [rbW] = none := by
  norm_num [rbScan, rbW, phW, FSRigidBody.get_body, Physics.lookup,
    List.find?, ratTrunc, Rat.floor, Rat.ceil, sandM,
    MaterialInstance.air, AIR_ID, List.getD, Int.toNat]

theorem rbScanW_m11 :
    rbScan (fun _ => 0) (fun _ => 1) 1 phW (-1) 1 [rbW] = none := by
  norm_num [rbScan, rbW, phW, FSRigidBody.get_body, Physics.lookup,
    List.find?, ratTrunc, Rat.floor, Rat.ceil, sandM,
    MaterialInstance.air, AIR_ID, List.getD, Int.toNat]

theorem rbScanW_11 :
    rbScan (fun _ => 0) (fun _ => 1) 1 phW 1 1 [rbW] = none := by
  norm_num [rbScan, rbW, phW, FSRigidBody.get_body, Physics.lookup,
    List.find?, ratTrunc, Rat.floor, Rat.ceil, sandM,
    MaterialInstance.air, AIR_ID, List.getD, Int.toNat]

theorem rbScanW_02 :
    rbScan (fun _ => 0) (fun _ => 1) 1 phW 0 2 [rbW] = none := by
  norm_num [rbScan, rbW, phW, FSRigidBody.get_body, Physics.lookup,
    List.find?, ratTrunc, Rat.floor, Rat.ceil, sandM,
    MaterialInstance.air, AIR_ID, List.getD, Int.toNat]

theorem rbW_borrow_01 :
    (rigidH (fun _ => 0) (fun _ => 1) 1).borrowPixel rbsW 0 1 =
      (MaterialInstance.air, rbsW) := by
  rw [rigidH_borrowPixel]
  have h : rbsW.world (0, 1) = MaterialInstance.air := by norm_num [rbsW]
  have hp : rbsW.physics = phW := rfl
  have hr : rbsW.rigidbodies = [rbW] := rfl
  simp [h, hp, hr, rbScanW_01, MaterialInstance.air, AIR_ID]

theorem rbW_borrow_m11 :
    (rigidH (fun _ => 0) (fun _ => 1) 1).borrowPixel rbsW (-1) 1 =
      (MaterialInstance.air, rbsW) := by
  rw [rigidH_borrowPixel]
  have h : rbsW.world (-1, 1) = MaterialInstance.air := by norm_num [rbsW]
  have hp : rbsW.physics = phW := rfl
  have hr : rbsW.rigidbodies = [rbW] := rfl
  simp [h, hp, hr, rbScanW_m11, MaterialInstance.air, AIR_ID]

theorem rbW_borrow_11 :
    (rigidH (fun _ => 0) (fun _ => 1) 1).borrowPixel rbsW 1 1 =
      (MaterialInstance.air, rbsW) := by
  rw [rigidH_borrowPixel]
  have h : rbsW.world (1, 1) = MaterialInstance.air := rfl
  have hs : rbScan (fun _ => 0) (fun _ => 1) 1 rbsW.physics 1 1
      rbsW.rigidbodies = none := rbScanW_11
  rw [h, hs]
  rfl

theorem rbW_borrow_02 :
    (rigidH (fun _ => 0) (fun _ => 1) 1).borrowPixel rbsW 0 2 =
      (MaterialInstance.air, rbsW) := by
  rw [rigidH_borrowPixel]
  have h : rbsW.world (0, 2) = MaterialInstance.air := by norm_num [rbsW]
  have hp : rbsW.physics = phW := rfl
  have hr : rbsW.rigidbodies = [rbW] := rfl
  simp [h, hp, hr, rbScanW_02, MaterialInstance.air, AIR_ID]

theorem rbW_borrow_03 :
    (rigidH (fun _ => 0) (fun _ => 1) 1).borrowPixel rbsW 0 3 =
      (solidM, rbsW) := by
  rw [rigidH_borrowPixel]
  have h : rbsW.world (0, 3) = solidM := by norm_num [rbsW]
  simp [h, solidM, AIR_ID]

theorem rbW_allAir :
    allAir (rigidH (fun _ => 0) (fun _ => 1) 1) rbsW
      [(0, 2), (0, 3), (0, 4), (0, 5)] = (false, rbsW) := by
  simp only [allAir, rbW_borrow_02, rbW_borrow_03]
  have hA : MaterialInstance.air.physics = PhysicsType.Air := rfl
  have hS : solidM.physics = PhysicsType.Solid := rfl
  rw [hA, hS, if_pos rfl, if_neg (fun hc => PhysicsType.noConfusion hc)]

theorem rbW_sim :
    simulate_pixel (rigidH (fun _ => 0) (fun _ => 1) 1) 0 0 sandM
      rbsW rngW =
      (some MaterialInstance.air,
       { rbsW with
         world := upd2 rbsW.world (0, 2) sandM
         worldColors := upd2 rbsW.worldColors (0, 2) sandM.color },
       Rng.mk rngW.bools rngW.rats 1 1) := by
  have hphys : sandM.physics = PhysicsType.Sand := rfl
  simp only [simulate_pixel, hphys]
  norm_num [rbW_borrow_01, rbW_borrow_m11, rbW_borrow_11, rbW_allAir,
    rbW_borrow_02, fallBranch, Rng.bool, Rng.f32, rngW, Rng.mk0,
    MaterialInstance.air, rigidH_setColor, rigidH_setLight,
    rigidH_setPixel]

/-- One step of the rigid-body per-pixel loop either leaves the body
list unchanged or, when the transition produced a replacement for the
source cell, replaces body i by a copy whose local grid is updated at
the single index rb_x + rb_y * width. -/
theorem rbPixelStep_cases (sinF cosF : ℚ → ℚ) (pscale : ℚ)
    (i rb_x rb_y : Nat) (s : RBState) (r : Rng) :
    (rbPixelStep sinF cosF pscale i rb_x rb_y s r).1.rigidbodies
      = s.rigidbodies ∨
    ∃ rb m, s.rigidbodies[i]? = some rb ∧
      (rbPixelStep sinF cosF pscale i rb_x rb_y s r).1.rigidbodies
        = s.rigidbodies.set i
            { rb with pixels := rb.pixels.set (rb_x + rb_y * rb.width) m } := by
  rcases hri : s.rigidbodies[i]? with _ | rb
  · left
    unfold rbPixelStep
    simp only [hri]
  · rcases hgb : rb.get_body s.physics with _ | bs
    · left
      unfold rbPixelStep
      simp only [hri, hgb]
    · rcases hsim : simulate_pixel (rigidH sinF cosF pscale)
          (ratTrunc ((rb_x : ℚ) * cosF bs.angle - (rb_y : ℚ) * sinF bs.angle
            + bs.translation.1 * pscale))
          (ratTrunc ((rb_x : ℚ) * sinF bs.angle + (rb_y : ℚ) * cosF bs.angle
            + bs.translation.2 * pscale))
          (rb.pixels.getD (rb_x + rb_y * rb.width) MaterialInstance.air)
          s r with ⟨o, s2, r2⟩
      have h2 : s2.rigidbodies = s.rigidbodies := by
        have h := simulate_pixel_preserves (rigidH sinF cosF pscale)
          (fun t => t.rigidbodies = s.rigidbodies)
          (fun u a b h => h) (fun u a b m h => h) (fun u a b c h => h)
          (fun u a b l h => h) (fun u m p v h => h)
          (ratTrunc ((rb_x : ℚ) * cosF bs.angle - (rb_y : ℚ) * sinF bs.angle
            + bs.translation.1 * pscale))
          (ratTrunc ((rb_x : ℚ) * sinF bs.angle + (rb_y : ℚ) * cosF bs.angle
            + bs.translation.2 * pscale))
          (rb.pixels.getD (rb_x + rb_y * rb.width) MaterialInstance.air)
          s r rfl
        rw [hsim] at h
        exact h
      rcases o with _ | m
      · left
        unfold rbPixelStep
        simp only [hri, hgb, hsim]
        exact h2
      · right
        refine ⟨rb, m, rfl, ?_⟩
        unfold rbPixelStep
        simp only [hri, hgb, hsim]
        rw [h2, List.getD_eq_getElem?_getD, hri]
        rfl

theorem rbW_step :
    (rbPixelStep (fun _ => 0) (fun _ => 1) 1 0 0 0 rbsW rngW).1.world
      (0, 2) = sandM := by
  have hr : rbsW.rigidbodies[0]? = some rbW := rfl
  have hgb : rbW.get_body rbsW.physics =
      some { translation := (0, 0), angle := 0, linvel := (0, 0),
             angvel := 0 } := rfl
  unfold rbPixelStep
  simp only [hr, hgb]
  norm_num [ratTrunc, Rat.floor, Rat.ceil, rbW, List.getD, rbW_sim, upd2]

/-- C9: the claim that during the rigid-body pass every write of the
sand transition lands in the body's own local pixel grid and never in
the world chunk grid is false: on a two-by-two body whose sand source
pixel can fall, the fall destination is written through the chunk
handler into the world grid (simulator.rs lines 429-431), as the
witnessing state shows at world cell (0, 2). -/
theorem rb_world_write_claim_false : ¬ rbNoWorldWriteClaim := by
  intro H
  have h := congrFun (H (fun _ => 0) (fun _ => 1) 1 0 0 0 rbsW rngW) (0, 2)
  rw [rbW_step] at h
  have h0 : rbsW.world (0, 2) = MaterialInstance.air := rfl
  rw [h0] at h
  exact absurd (congrArg MaterialInstance.material_id h)
    (by norm_num [sandM, MaterialInstance.air, AIR_ID])

/-- C9 (amended): during the rigid-body pass the destination writes of
the transition rule go through the chunk handler into the world chunk
grid, never into any body grid: the transition itself leaves the body
list untouched, one loop step changes no body other than body i, and
body i's local grid changes at most at the source cell
rb_x + rb_y * width, which receives the returned replacement. -/
theorem rb_writes_amended (sinF cosF : ℚ → ℚ) (pscale : ℚ)
    (i rb_x rb_y : Nat) (s : RBState) (r : Rng) :
    (∀ (x y : Int) (cur : MaterialInstance) (s0 : RBState) (r0 : Rng),
      (simulate_pixel (rigidH sinF cosF pscale) x y cur s0 r0).2.1.rigidbodies
        = s0.rigidbodies) ∧
    (∀ j, j ≠ i →
      (rbPixelStep sinF cosF pscale i rb_x rb_y s r).1.rigidbodies[j]?
        = s.rigidbodies[j]?) ∧
    (∀ rb, s.rigidbodies[i]? = some rb →
      ∀ k, k ≠ rb_x + rb_y * rb.width →
        ((rbPixelStep sinF cosF pscale i rb_x rb_y s r).1.rigidbodies.getD
            i rb).pixels[k]? = rb.pixels[k]?) := by
  refine ⟨?_, ?_, ?_⟩
  · intro x y cur s0 r0
    exact simulate_pixel_preserves (rigidH sinF cosF pscale)
      (fun t => t.rigidbodies = s0.rigidbodies)
      (fun u a b h => h) (fun u a b m h => h) (fun u a b c h => h)
      (fun u a b l h => h) (fun u m p v h => h) x y cur s0 r0 rfl
  · intro j hj
    rcases rbPixelStep_cases sinF cosF pscale i rb_x rb_y s r with
      h | ⟨rb, m, hrb, heq⟩
    · rw [h]
    · rw [heq]
      exact List.getElem?_set_ne (Ne.symm hj)
  · intro rb hrb k hk
    rcases rbPixelStep_cases sinF cosF pscale i rb_x rb_y s r with
      h | ⟨rb2, m, hrb2, heq⟩
    · rw [h, List.getD_eq_getElem?_getD, hrb, Option.getD_some]
    · have hre : rb2 = rb := by
        rw [hrb] at hrb2
        exact (Option.some.inj hrb2).symm
      subst hre
      obtain ⟨hlt, _⟩ := List.getElem?_eq_some_iff.mp hrb
      rw [heq, List.getD_eq_getElem?_getD,
        List.getElem?_set_self (by simpa using hlt), Option.getD_some]
      exact List.getElem?_set_ne (Ne.symm hk)

theorem rb_writes_amended_witness :
    ((1 : Nat) ≠ 0 ∧ rbsW.rigidbodies[0]? = some rbW ∧
      (1 : Nat) ≠ 0 + 0 * rbW.width) ∧
    ((rbPixelStep (fun _ => 0) (fun _ => 1) 1 0 0 0 rbsW
        rngW).1.rigidbodies[1]? = rbsW.rigidbodies[1]? ∧
     ((rbPixelStep (fun _ => 0) (fun _ => 1) 1 0 0 0 rbsW
          rngW).1.rigidbodies.getD 0 rbW).pixels[1]? = rbW.pixels[1]?) := by
  refine ⟨⟨by decide, rfl, by decide⟩, ?_, ?_⟩
  · exact (rb_writes_amended (fun _ => 0) (fun _ => 1) 1 0 0 0 rbsW
      rngW).2.1 1 (by decide)
  · exact (rb_writes_amended (fun _ => 0) (fun _ => 1) 1 0 0 0 rbsW
      rngW).2.2 rbW rfl 1 (by decide)

/-- The type of the body factory FSRigidBody::make_bodies (rigidbody.rs
is outside the simulator source; the simulator only calls it with the
pixel grid, its dimensions, the physics world and a position, receiving
the optional list of new bodies and the updated physics world). -/
def MkBodies : Type :=
  List MaterialInstance → Nat → Nat → Physics → ℚ × ℚ →
    Option (List FSRigidBody) × Physics

/-- One iteration of the inner per-pixel loop of the first pass of
simulate_rigidbodies (simulator.rs lines 616-649) together with the
dirty and needs_remesh flags of the current body: run the transition
step; when it produced a replacement, set dirty and, when the change
crosses the Solid physics category in either direction, set
needs_remesh. -/
def rbStepFlags (sinF cosF : ℚ → ℚ) (pscale : ℚ) (i : Nat)
    (a : RBState × Rng × Bool × Bool) (c : Nat × Nat) :
    RBState × Rng × Bool × Bool :=
  match rbPixelStep sinF cosF pscale i c.1 c.2 a.1 a.2.1 with
  | (s2, r2, none) => (s2, r2, a.2.2.1, a.2.2.2)
  | (s2, r2, some (cur, m)) =>
    (s2, r2, true,
      a.2.2.2 || ((cur.physics == PhysicsType.Solid &&
          !(m.physics == PhysicsType.Solid)) ||
        (!(cur.physics == PhysicsType.Solid) &&
          (m.physics == PhysicsType.Solid))))

/-- The iteration order of the per-pixel loops of simulate_rigidbodies
(simulator.rs lines 615-616): the outer variable rb_y ranges over the
body width and the inner variable rb_x over the body height, exactly as
in the source. -/
def rbCoords (w h : Nat) : List (Nat × Nat) :=
  (List.range w).flatMap
    (fun rb_y => (List.range h).map (fun rb_x => (rb_x, rb_y)))

/-- The first pass of simulate_rigidbodies for one body (simulator.rs
lines 596-655): when the body has a physics handle that resolves, fold
the per-pixel step with its flag updates over the grid; otherwise leave
the state untouched with both flags clear. -/
def rbBodyPass1 (sinF cosF : ℚ → ℚ) (pscale : ℚ) (i : Nat)
    (s : RBState) (r : Rng) : RBState × Rng × Bool × Bool :=
  match s.rigidbodies[i]? with
  | none => (s, r, false, false)
  | some rb =>
    match rb.get_body s.physics with
    | none => (s, r, false, false)
    | some _ =>
      (rbCoords rb.width rb.height).foldl
        (rbStepFlags sinF cosF pscale i) (s, r, false, false)

/-- The whole first pass of simulate_rigidbodies (simulator.rs lines
594-656), producing the per-body (dirty, needs_remesh) flag list. -/
def rbPass1 (sinF cosF : ℚ → ℚ) (pscale : ℚ) (s : RBState) (r : Rng) :
    RBState × Rng × List (Bool × Bool) :=
  (List.range s.rigidbodies.length).foldl
    (fun a i =>
      match rbBodyPass1 sinF cosF pscale i a.1 a.2.1 with
      | (s2, r2, d, n) => (s2, r2, a.2.2 ++ [(d, n)]))
    (s, r, [])

/-- The second pass of simulate_rigidbodies (simulator.rs lines
658-663): a body that is dirty but does not need a remesh is flagged
image_dirty; every other body is left as it is. -/
def rbMark (rb : FSRigidBody) (dn : Bool × Bool) : FSRigidBody :=
  if dn.1 && !dn.2 then { rb with image_dirty := true } else rb

/-- The pose and velocity inheritance loop of simulate_rigidbodies
(simulator.rs lines 696-706): every body produced by the rebuild gets
the captured position, rotation, linear velocity and angular velocity
of the removed body; a produced body without a resolvable handle makes
the source panic, modelled as none. -/
def rbInherit (bs : BodyState) : Physics → List FSRigidBody →
    Option Physics
  | p, [] => some p
  | p, nrb :: rest =>
    match nrb.body with
    | none => none
    | some h2 => rbInherit bs (p.setState h2 bs) rest

/-- One body of the drain-and-rebuild pass of simulate_rigidbodies
(simulator.rs lines 665-711): a body that needs a remesh has its pose
and velocities captured, its old physics body removed, new bodies made
from its current pixel grid (a failed rebuild contributes the empty
list through unwrap_or_default), and the inheritance loop applied; a
body that does not need a remesh is passed through unchanged.  The
unwraps of the source are modelled as none. -/
def rbRemeshBody (mk : MkBodies) (rb : FSRigidBody) (ph : Physics)
    (needs : Bool) : Option (List FSRigidBody × Physics) :=
  if needs then
    match rb.body with
    | none => none
    | some h =>
      match ph.lookup h with
      | none => none
      | some bs =>
        let pr := mk rb.pixels rb.width rb.height (ph.remove h)
          bs.translation
        match rbInherit bs pr.2 (pr.1.getD []) with
        | none => none
        | some ph3 => some (pr.1.getD [], ph3)
  else some ([rb], ph)

/-- The flat_map of the drain-and-rebuild pass (simulator.rs lines
665-711), concatenating each body's contribution in order while
threading the physics world. -/
def rbPass3 (mk : MkBodies) : List (FSRigidBody × Bool) → Physics →
    Option (List FSRigidBody × Physics)
  | [], ph => some ([], ph)
  | rbn :: rest, ph =>
    match rbRemeshBody mk rbn.1 ph rbn.2 with
    | none => none
    | some (l1, ph1) =>
      match rbPass3 mk rest ph1 with
      | none => none
      | some (l2, ph2) => some (l1 ++ l2, ph2)

/-- simulate_rigidbodies (simulator.rs lines 588-712): the per-pixel
pass with flag collection, the image_dirty marking, and the
drain-and-rebuild pass. -/
def simulate_rigidbodies (mk : MkBodies) (sinF cosF : ℚ → ℚ)
    (pscale : ℚ) (s : RBState) (r : Rng) : Option (RBState × Rng) :=
  match rbPass1 sinF cosF pscale s r with
  | (s1, r1, flags) =>
    match rbPass3 mk
        (List.zip (List.zipWith rbMark s1.rigidbodies flags)
          (flags.map Prod.snd)) s1.physics with
    | none => none
    | some (nb, ph) =>
      some ({ s1 with rigidbodies := nb, physics := ph }, r1)

theorem setState_lookup_ne (h h0 : Nat) (bs : BodyState)
    (h00 : h0 ≠ h) :
    ∀ l : List (Nat × BodyState),
    Physics.lookup (Physics.setState { bodies := l } h bs) h0 =
      Physics.lookup { bodies := l } h0 := by
  intro l
  induction l with
  | nil => rfl
  | cons hb tl ih =>
    by_cases hk : hb.1 = h
    · have h1 : ¬ ((fun x : Nat × BodyState => x.1 == h0)
          (if hb.1 = h then (h, bs) else hb)) = true := by
        simp [hk]
        exact fun he => h00 he.symm
      have h2 : ¬ ((fun x : Nat × BodyState => x.1 == h0) hb) = true := by
        simp [hk]
        exact fun he => h00 he.symm
      simp only [Physics.setState, Physics.lookup, List.map_cons] at ih ⊢
      rw [@List.find?_cons_of_neg _ (fun x : Nat × BodyState => x.1 == h0)
          (if hb.1 = h then (h, bs) else hb)
          (tl.map (fun x => if x.1 = h then (h, bs) else x)) h1,
        @List.find?_cons_of_neg _ (fun x : Nat × BodyState => x.1 == h0)
          hb tl h2]
      exact ih
    · have hfk : (if hb.1 = h then (h, bs) else hb) = hb := by simp [hk]
      by_cases hq : ((fun x : Nat × BodyState => x.1 == h0) hb) = true
      · simp only [Physics.setState, Physics.lookup, List.map_cons]
        rw [hfk,
          @List.find?_cons_of_pos _ (fun x : Nat × BodyState => x.1 == h0)
            hb (tl.map (fun x => if x.1 = h then (h, bs) else x)) hq,
          @List.find?_cons_of_pos _ (fun x : Nat × BodyState => x.1 == h0)
            hb tl hq]
      · simp only [Physics.setState, Physics.lookup, List.map_cons]
          at ih ⊢
        rw [hfk,
          @List.find?_cons_of_neg _ (fun x : Nat × BodyState => x.1 == h0)
            hb (tl.map (fun x => if x.1 = h then (h, bs) else x)) hq,
          @List.find?_cons_of_neg _ (fun x : Nat × BodyState => x.1 == h0)
            hb tl hq]
        exact ih

theorem setState_lookup_eq (h : Nat) (bs : BodyState) :
    ∀ l : List (Nat × BodyState),
    Physics.lookup (Physics.setState { bodies := l } h bs) h =
      if (Physics.lookup { bodies := l } h).isSome = true then some bs
      else none := by
  intro l
  induction l with
  | nil => rfl
  | cons hb tl ih =>
    by_cases hk : hb.1 = h
    · have h1 : ((fun x : Nat × BodyState => x.1 == h)
          (if hb.1 = h then (h, bs) else hb)) = true := by simp [hk]
      have h2 : ((fun x : Nat × BodyState => x.1 == h) hb) = true := by
        simp [hk]
      simp only [Physics.setState, Physics.lookup, List.map_cons]
      rw [@List.find?_cons_of_pos _ (fun x : Nat × BodyState => x.1 == h)
          (if hb.1 = h then (h, bs) else hb)
          (tl.map (fun x => if x.1 = h then (h, bs) else x)) h1]
      simp only [@List.find?_cons_of_pos _
        (fun x : Nat × BodyState => x.1 == h) hb tl h2]
      simp [hk]
    · have h1 : ¬ ((fun x : Nat × BodyState => x.1 == h)
          (if hb.1 = h then (h, bs) else hb)) = true := by simp [hk]
      have h2 : ¬ ((fun x : Nat × BodyState => x.1 == h) hb) = true := by
        simp [hk]
      simp only [Physics.setState, Physics.lookup, List.map_cons] at ih ⊢
      rw [@List.find?_cons_of_neg _ (fun x : Nat × BodyState => x.1 == h)
          (if hb.1 = h then (h, bs) else hb)
          (tl.map (fun x => if x.1 = h then (h, bs) else x)) h1]
      simp only [@List.find?_cons_of_neg _
        (fun x : Nat × BodyState => x.1 == h) hb tl h2]
      exact ih

theorem setState_lookup_or (ph : Physics) (h h0 : Nat) (bs : BodyState) :
    (ph.setState h bs).lookup h0 = ph.lookup h0 ∨
    (ph.setState h bs).lookup h0 = some bs := by
  rcases ph with ⟨l⟩
  by_cases h00 : h0 = h
  · subst h00
    rw [setState_lookup_eq]
    rcases hv : (Physics.lookup { bodies := l } h0).isSome with _ | _
    · left
      simp [hv]
      exact (Option.not_isSome_iff_eq_none.mp (by simp [hv])).symm
    · right
      simp [hv]
  · left
    exact setState_lookup_ne h h0 bs h00 l

theorem setState_lookup_isSome (ph : Physics) (h h0 : Nat)
    (bs : BodyState) :
    ((ph.setState h bs).lookup h0).isSome = (ph.lookup h0).isSome := by
  rcases ph with ⟨l⟩
  by_cases h00 : h0 = h
  · subst h00
    rw [setState_lookup_eq]
    rcases hv : (Physics.lookup { bodies := l } h0).isSome with _ | _
    · simp [hv]
    · simp [hv]
  · rw [setState_lookup_ne h h0 bs h00 l]

theorem setState_lookup_self (ph : Physics) (h : Nat) (bs : BodyState)
    (hp : (ph.lookup h).isSome = true) :
    (ph.setState h bs).lookup h = some bs := by
  rcases ph with ⟨l⟩
  rw [setState_lookup_eq]
  simp [hp]

theorem rbInherit_spec (bs : BodyState) :
    ∀ (l : List FSRigidBody) (p : Physics),
      (∀ nrb ∈ l, ∃ h2, nrb.body = some h2 ∧
        (p.lookup h2).isSome = true) →
      ∃ p2, rbInherit bs p l = some p2 ∧
        (∀ h0, p2.lookup h0 = p.lookup h0 ∨ p2.lookup h0 = some bs) ∧
        (∀ nrb ∈ l, ∀ h2, nrb.body = some h2 →
          p2.lookup h2 = some bs) := by
  intro l
  induction l with
  | nil =>
    intro p hp
    exact ⟨p, rfl, fun h0 => Or.inl rfl, by simp⟩
  | cons nrb rest ih =>
    intro p hp
    obtain ⟨h2, hb2, hs2⟩ := hp nrb (List.mem_cons_self _ _)
    have hrest : ∀ m ∈ rest, ∃ hh, m.body = some hh ∧
        (((p.setState h2 bs).lookup hh).isSome = true) := by
      intro m hm
      obtain ⟨hh, hbh, hsh⟩ := hp m (List.mem_cons_of_mem _ hm)
      exact ⟨hh, hbh, by rw [setState_lookup_isSome]; exact hsh⟩
    obtain ⟨p2, hrun, hor, hall⟩ := ih (p.setState h2 bs) hrest
    refine ⟨p2, ?_, ?_, ?_⟩
    · simp only [rbInherit, hb2]
      exact hrun
    · intro h0
      rcases hor h0 with hcase | hcase
      · rcases setState_lookup_or p h2 h0 bs with h2o | h2o
        · left
          rw [hcase, h2o]
        · right
          rw [hcase, h2o]
      · right
        exact hcase
    · intro m hm hh hbh
      rcases List.mem_cons.mp hm with hmeq | hm2
      · subst hmeq
        rw [hbh] at hb2
        have hhh : hh = h2 := Option.some.inj hb2
        subst hhh
        rcases hor hh with hcase | hcase
        · rw [hcase]
          exact setState_lookup_self p hh bs hs2
        · exact hcase
      · exact hall m hm2 hh hbh

/-- C8: in simulate_rigidbodies, a body whose step saw no pixel change
crossing the Solid physics boundary is never remeshed and keeps its
handle and physics state unchanged; a dirty body without a crossing
change only gets its image_dirty flag set, all other fields untouched;
the needs_remesh flag after a loop step is set exactly when it was
already set or that step's replacement crossed the Solid boundary; and
a body with the flag set undergoes exactly one remove-and-rebuild
cycle: its pose and velocities are captured, its old body is removed
from the physics world, the factory runs on its current pixel grid at
the captured position, a rebuild with no shapes contributes nothing
without panicking, every produced body is retained in order, and each
one inherits the captured position, rotation, linear velocity and
angular velocity exactly. -/
theorem rigidbody_remesh_spec (mk : MkBodies) (rb : FSRigidBody)
    (ph : Physics) :
    (rbRemeshBody mk rb ph false = some ([rb], ph)) ∧
    (∀ d n : Bool,
      (rbMark rb (d, n)).width = rb.width ∧
      (rbMark rb (d, n)).height = rb.height ∧
      (rbMark rb (d, n)).pixels = rb.pixels ∧
      (rbMark rb (d, n)).body = rb.body ∧
      ((rbMark rb (d, n)).image_dirty = true ↔
        (rb.image_dirty = true ∨ (d = true ∧ n = false)))) ∧
    (∀ (sinF cosF : ℚ → ℚ) (pscale : ℚ) (i : Nat) (s : RBState)
      (r : Rng) (d n : Bool) (c : Nat × Nat),
      ((rbStepFlags sinF cosF pscale i (s, r, d, n) c).2.2.2 = true ↔
        (n = true ∨ ∃ cur m,
          (rbPixelStep sinF cosF pscale i c.1 c.2 s r).2.2 =
            some (cur, m) ∧
          ((cur.physics = PhysicsType.Solid ∧
              ¬ m.physics = PhysicsType.Solid) ∨
           (¬ cur.physics = PhysicsType.Solid ∧
              m.physics = PhysicsType.Solid))))) ∧
    (∀ (h : Nat) (bs : BodyState) (ro : Option (List FSRigidBody))
      (ph2 : Physics),
      rb.body = some h → ph.lookup h = some bs →
      mk rb.pixels rb.width rb.height (ph.remove h) bs.translation =
        (ro, ph2) →
      ((ro = none → rbRemeshBody mk rb ph true = some ([], ph2)) ∧
       (∀ l, ro = some l →
         (∀ nrb ∈ l, ∃ h2, nrb.body = some h2 ∧
           (ph2.lookup h2).isSome = true) →
         ∃ ph3, rbRemeshBody mk rb ph true = some (l, ph3) ∧
           (∀ nrb ∈ l, ∀ h2, nrb.body = some h2 →
             ph3.lookup h2 = some bs)))) := by
  refine ⟨rfl, ?_, ?_, ?_⟩
  · intro d n
    cases d <;> cases n <;> simp [rbMark]
  · intro sinF cosF pscale i s r d n c
    rcases hstep : rbPixelStep sinF cosF pscale i c.1 c.2 s r with
      ⟨s2, r2, o⟩
    rcases o with _ | ⟨cur, m⟩
    · simp [rbStepFlags, hstep]
    · by_cases h1 : cur.physics = PhysicsType.Solid <;>
        by_cases h2 : m.physics = PhysicsType.Solid <;>
          cases n <;>
            simp [rbStepFlags, hstep, h1, h2, beq_iff_eq] <;>
              first
              | exact ⟨cur, m, ⟨rfl, rfl⟩, Or.inl ⟨h1, h2⟩⟩
              | exact ⟨cur, m, ⟨rfl, rfl⟩, Or.inr ⟨h1, h2⟩⟩
  · intro h bs ro ph2 hb hlk hmk
    constructor
    · intro hro
      subst hro
      simp [rbRemeshBody, hb, hlk, hmk, rbInherit]
    · intro l hro hpres
      subst hro
      obtain ⟨p2, hrun, hor, hall⟩ := rbInherit_spec bs l ph2 hpres
      refine ⟨p2, ?_, hall⟩
      simp [rbRemeshBody, hb, hlk, hmk, hrun]

/-- The captured pose and velocity of the body in the witness physics
world. -/
def bsW : BodyState :=
  { translation := (0, 0), angle := 0, linvel := (0, 0), angvel := 0 }

/-- A one-pixel body produced by the witness factory, registered under
handle 1. -/
def rbNW : FSRigidBody :=
  { width := 1, height := 1, pixels := [sandM], body := some 1,
    image_dirty := false }

/-- A witness factory: always produce the single body rbNW and register
its handle in the physics world. -/
def mkW : MkBodies :=
  fun _ _ _ p _ => (some [rbNW], { bodies := p.bodies ++ [(1, bsW)] })

/-- The physics world produced by the witness factory after the old
body is removed. -/
def phNW : Physics :=
  { bodies := (Physics.remove phW 0).bodies ++ [(1, bsW)] }

theorem rigidbody_remesh_spec_witness :
    (rbW.body = some 0 ∧ phW.lookup 0 = some bsW ∧
      mkW rbW.pixels rbW.width rbW.height (Physics.remove phW 0)
        bsW.translation = (some [rbNW], phNW) ∧
      (∀ nrb ∈ [rbNW], ∃ h2, nrb.body = some h2 ∧
        (phNW.lookup h2).isSome = true)) ∧
    (∃ ph3, rbRemeshBody mkW rbW phW true = some ([rbNW], ph3) ∧
      (∀ nrb ∈ [rbNW], ∀ h2, nrb.body = some h2 →
        ph3.lookup h2 = some bsW)) := by
  have hpres : ∀ nrb ∈ [rbNW], ∃ h2, nrb.body = some h2 ∧
      (phNW.lookup h2).isSome = true := by
    intro nrb hm
    rw [List.mem_singleton] at hm
    subst hm
    exact ⟨1, rfl, rfl⟩
  refine ⟨⟨rfl, rfl, rfl, hpres⟩, ?_⟩
  exact ((rigidbody_remesh_spec mkW rbW phW).2.2.2 0 bsW (some [rbNW])
    phNW rfl rfl rfl).2 [rbNW] rfl hpres

end FallingSand
